import Mathlib

/-!
Verification development for the DeepSearch message-surveillance bot
(src/main.py, src/utils/command_utils.py, src/utils/search_utils.py,
src/utils/cache_utils.py).

Shallow embedding conventions:
* Python strings are `List Char` (`Str`); `str.lower` is modelled on its
  ASCII fragment (`Char.toLower` maps only A–Z).
* Machine integers are `Int`/`Nat`; Python floats arising from parsing
  decimal literals and from `datetime` arithmetic are modelled as exact
  rationals (`ℚ`), which agrees with IEEE semantics on every value these
  claims evaluate.
* Timestamps are rationals counting seconds; `datetime.now()` is a
  parameter of each model.
* Discord I/O (`ctx.send`, status-message edits) carries no program state
  and is modelled only through the returned response constructor.
* The shared cancellation flag `search_cancelled` can be mutated by a
  concurrently dispatched `cancel` invocation between any two reads; each
  loop therefore reads it through a schedule `sched : ℕ → Bool` giving the
  flag's value at the n-th read (poll) of the running job.
-/

namespace DeepSearch

/-- Python strings are modelled as lists of characters. -/
abbrev Str := List Char

/-- Coerce a Lean string literal into the model's string type. -/
def sl (s : String) : Str := s.toList

/-- Model of `str.lower` (ASCII fragment: `Char.toLower` maps A–Z to a–z). -/
def pyLower (s : Str) : Str := s.map Char.toLower

/-- Model of Python's substring test `needle in hay`. -/
def hasSub (hay needle : Str) : Bool :=
  match hay with
  | [] => needle.isEmpty
  | _ :: t => needle.isPrefixOf hay || hasSub t needle

/-- Model of `str.startswith`. -/
def pyStartsWith (s pre : Str) : Bool := pre.isPrefixOf s

/-- Model of `str.endswith`. -/
def pyEndsWith (s suf : Str) : Bool := suf.isSuffixOf s

/-- Model of `str.strip` (ASCII whitespace). -/
def pyStrip (s : Str) : Str :=
  (s.dropWhile Char.isWhitespace).reverse.dropWhile Char.isWhitespace |>.reverse

/-- Numeric value of a digit string (most significant first). -/
def digitsVal (ds : Str) : ℕ := ds.foldl (fun a c => a * 10 + (c.toNat - 48)) 0

/-- Model of Python `float(s)` on the decimal-literal fragment
`[+|-] digits [. digits]` (exponents, `inf`/`nan`, underscores and
surrounding whitespace are outside the fragment exercised here);
a non-conforming string raises `ValueError`, modelled as `none`.
The float value is the exact decimal `z / 10 ^ e`, returned as the pair
`(z, e)` (IEEE rounding is exact on every value these claims evaluate). -/
def pyFloat? (s : Str) : Option (ℤ × ℕ) :=
  let (sign, rest) : ℤ × Str :=
    match s with
    | c :: t => if c = '+' then (1, t) else if c = '-' then (-1, t) else (1, s)
    | [] => (1, [])
  let intPart := rest.takeWhile Char.isDigit
  let rest2 := rest.dropWhile Char.isDigit
  match rest2 with
  | [] => if intPart = [] then none else some (sign * digitsVal intPart, 0)
  | '.' :: frac =>
    if frac.all Char.isDigit ∧ (intPart ≠ [] ∨ frac ≠ []) then
      some (sign * digitsVal (intPart ++ frac), frac.length)
    else none
  | _ => none

/-- Model of Python `int(s)` on string input: optional sign then digits;
anything else raises `ValueError` (`none`). -/
def pyInt? (s : Str) : Option ℤ :=
  let (sign, rest) : ℤ × Str :=
    match s with
    | c :: t => if c = '+' then (1, t) else if c = '-' then (-1, t) else (1, s)
    | [] => (1, [])
  if rest ≠ [] ∧ rest.all Char.isDigit then some (sign * digitsVal rest) else none

/-- Model of Python `int(f * m)` where `f` is the exact decimal `z / 10 ^ e`:
multiplication is exact and `int()` truncates toward zero. -/
def decScale (z : ℤ) (e : ℕ) (m : ℤ) : ℤ := Int.tdiv (z * m) (10 ^ e)

/-- `parse_query_limit` (main.py:308-319): parse a limit with optional
`k`/`m` suffix (×1000 / ×1,000,000); `None` on `ValueError`. -/
def parse_query_limit (limit_str : Str) : Option ℤ :=
  let s := pyLower limit_str
  if s.getLast? = some 'k' then
    (pyFloat? s.dropLast).map (fun d => decScale d.1 d.2 1000)
  else if s.getLast? = some 'm' then
    (pyFloat? s.dropLast).map (fun d => decScale d.1 d.2 1000000)
  else
    pyInt? s

/-- Model of `str.split(c)`: split on every occurrence of `c`, keeping
empty segments (`"".split(c) == [""]`). -/
def splitOnChar (c : Char) : Str → List Str
  | [] => [[]]
  | a :: t =>
    if a = c then [] :: splitOnChar c t
    else
      match splitOnChar c t with
      | h :: r => (a :: h) :: r
      | [] => [[a]]

/-- The flag dictionary produced by `parse_command_args`; absence of a key is
`none`/`false` (the code only ever stores `True` under the boolean keys, and
`error` always carries the same fixed message, so booleans model dict
membership). -/
structure CmdFlags where
  query_limit : Option ℤ := none
  error : Bool := false
  include_channels : Option (List Str) := none
  exclude_channels : Option (List Str) := none
  deep_search : Bool := false
  debug : Bool := false
  scan_users : Bool := false
  scan_messages : Bool := false
deriving DecidableEq

/-- The second `if`/`elif` chain of the `parse_command_args` loop body
(main.py:349-356).  Because line 349 opens a fresh `if`, this chain runs on
every iteration, after the first chain; `dp` is the loop-invariant value of
`"--debug" in args or "-d" in args` (the code re-evaluates it each iteration
on the unchanged full `args`), `arg` is the lowered `args[i]` fixed at the
top of the iteration, and `elem` is `args[i]` at the chain's execution time
(`i` may have been bumped past a flag's value by the first chain). -/
def classifyTail (dp : Bool) (arg elem : Str) (acc : List Str) (fl : CmdFlags) :
    List Str × CmdFlags :=
  if dp then (acc, {fl with debug := true})
  else if arg = sl "--users" ∨ arg = sl "-u" then (acc, {fl with scan_users := true})
  else if arg = sl "--messages" ∨ arg = sl "-m" then (acc, {fl with scan_messages := true})
  else (elem :: acc, fl)

/-- The `while i < len(args)` loop of `parse_command_args` (main.py:329-358),
recursing on the unprocessed suffix `args[i:]`.  `rest = v :: rest'` is
exactly `i + 1 < len(args)`.  In the invalid-`--q` branch the code does not
skip the value, so recursion continues at `rest`; in the successful
value-flag branches `i` is bumped, so the element the second chain appends is
the flag's value `v` and recursion continues at `rest'`.  `acc` is
`processed_args` in reverse.  `fuel` only makes the recursion structural:
every iteration consumes at least one list element, so any `fuel ≥`
the suffix length computes the loop exactly. -/
def parseLoop (dp : Bool) : ℕ → List Str → List Str → CmdFlags → List Str × CmdFlags
  | 0, _, acc, fl => (acc.reverse, fl)
  | _ + 1, [], acc, fl => (acc.reverse, fl)
  | fuel + 1, a :: rest, acc, fl =>
    let arg := pyLower a
    match rest with
    | v :: rest' =>
      if arg = sl "--q" ∨ arg = sl "--query" then
        match parse_query_limit v with
        | some l =>
          let (acc, fl) := classifyTail dp arg v acc {fl with query_limit := some l}
          parseLoop dp fuel rest' acc fl
        | none =>
          let (acc, fl) := classifyTail dp arg a acc {fl with error := true}
          parseLoop dp fuel rest acc fl
      else if arg = sl "--in" ∨ arg = sl "--channel" then
        let (acc, fl) := classifyTail dp arg v acc
          {fl with include_channels := some ((splitOnChar ',' v).map pyStrip)}
        parseLoop dp fuel rest' acc fl
      else if arg = sl "--exclude" ∨ arg = sl "--not" then
        let (acc, fl) := classifyTail dp arg v acc
          {fl with exclude_channels := some ((splitOnChar ',' v).map pyStrip)}
        parseLoop dp fuel rest' acc fl
      else if arg = sl "--all" ∨ arg = sl "-a" then
        let (acc, fl) := classifyTail dp arg a acc {fl with deep_search := true}
        parseLoop dp fuel rest acc fl
      else
        let (acc, fl) := classifyTail dp arg a acc fl
        parseLoop dp fuel rest acc fl
    | [] =>
      if arg = sl "--all" ∨ arg = sl "-a" then
        let (acc, fl) := classifyTail dp arg a acc {fl with deep_search := true}
        (acc.reverse, fl)
      else
        let (acc, fl) := classifyTail dp arg a acc fl
        (acc.reverse, fl)

/-- `parse_command_args` (main.py:323-360): split command arguments into
positional arguments and a flag dictionary. -/
def parse_command_args (args : List Str) : List Str × CmdFlags :=
  parseLoop (args.contains (sl "--debug") || args.contains (sl "-d"))
    args.length args [] {}

/-- Per-guild cooldown dictionary: guild id → timestamp (seconds).  Insertion
prepends; `List.lookup` finds the most recent binding, matching dict
overwrite semantics. -/
abbrev Cooldowns := List (ℕ × ℚ)

/-- `apply_cooldown` (utils/command_utils.py:29-46): gate expensive searches.
Returns the (possibly updated) cooldown dict, the allow flag, and the
remaining wait in minutes.  Timestamps are seconds; `elapsed` is
`(current_time - last_search).total_seconds() / 60`. -/
def apply_cooldown (search_cooldowns : Cooldowns) (guild_id : ℕ)
    (deep_search custom_query : Bool) (now : ℚ) (cooldown_minutes : ℚ := 5) :
    Cooldowns × Bool × ℚ :=
  if deep_search || custom_query then
    match search_cooldowns.lookup guild_id with
    | some last_search =>
      let elapsed := (now - last_search) / 60
      if elapsed < cooldown_minutes then
        (search_cooldowns, false, cooldown_minutes - elapsed)
      else
        ((guild_id, now) :: search_cooldowns, true, 0)
    | none => ((guild_id, now) :: search_cooldowns, true, 0)
  else (search_cooldowns, true, 0)

/-- A dynamic (Python) dict value: number or string.  `datetime` strings and
float seconds both occur in the stats dicts. -/
inductive PyVal where
  | num (q : ℚ)
  | str (s : Str)
deriving DecidableEq

/-- A Python dict with string keys, used for the heterogeneous
`last_search` records. -/
abbrev PyDict := List (Str × PyVal)

/-- The `largest_search` record.  Only its `messages` key is ever compared
(`search_utils.py:83`, `main.py:1350`, `main.py:1581`); `tag` is the
`keyword` (default, regex, export) / `user` (`update_search_stats`) payload
slot, and `time` holds a float (default, regex, export) or a datetime
string (`update_search_stats`). -/
structure LargestSearch where
  messages : ℕ
  time : PyVal
  tag : Str
  guild : Str
deriving DecidableEq

/-- The `search_stats` aggregate (shape of `load_search_stats`'s default,
main.py:854-865).  The per-guild/per-user dicts are total functions
defaulting to 0 (`if name not in d: d[name] = 0` then increment). -/
structure SearchStats where
  total_searches : ℕ
  total_messages_searched : ℕ
  total_matches_found : ℕ
  cancelled_searches : ℕ
  deep_searches : ℕ
  search_time_total : ℚ
  searches_by_guild : Str → ℕ
  searches_by_user : Str → ℕ
  last_search : Option PyDict
  largest_search : LargestSearch

/-- The zero-valued default aggregate returned by `load_search_stats` when
the stats file is missing or unreadable (main.py:854-865, 869-880). -/
def zeroStats : SearchStats where
  total_searches := 0
  total_messages_searched := 0
  total_matches_found := 0
  cancelled_searches := 0
  deep_searches := 0
  search_time_total := 0
  searches_by_guild := fun _ => 0
  searches_by_user := fun _ => 0
  last_search := none
  largest_search := ⟨0, .num 0, [], []⟩

/-- `update_search_stats` (utils/search_utils.py:53-89): record one finished
job in the aggregate.  `found_count` is `len(found_messages)`; `nowStr` is
the formatted `datetime.now()` string. -/
def update_search_stats (s : SearchStats) (guildName authorName : Str)
    (total_searched found_count : ℕ) (search_time : ℚ) (nowStr : Str) :
    SearchStats :=
  let s := {s with
    total_searches := s.total_searches + 1
    total_messages_searched := s.total_messages_searched + total_searched
    total_matches_found := s.total_matches_found + found_count
    search_time_total := s.search_time_total + search_time}
  let s := {s with searches_by_guild := fun g =>
    if g = guildName then s.searches_by_guild g + 1 else s.searches_by_guild g}
  let s := {s with searches_by_user := fun u =>
    if u = authorName then s.searches_by_user u + 1 else s.searches_by_user u}
  let lastRec : PyDict :=
    [(sl "user", .str authorName), (sl "guild", .str guildName),
     (sl "time", .str nowStr), (sl "messages_searched", .num total_searched),
     (sl "matches_found", .num found_count),
     (sl "search_time", .num search_time)]
  let s := {s with last_search := some lastRec}
  if total_searched > s.largest_search.messages then
    {s with largest_search := ⟨total_searched, .str nowStr, authorName, guildName⟩}
  else s

/-- One job as fed to `update_search_stats`: everything the call site passes
besides the aggregate itself. -/
structure JobRec where
  messages : ℕ
  found : ℕ
  time : ℚ
  guild : Str
  author : Str
  nowStr : Str

/-- Record a sequence of jobs through `update_search_stats`, in order. -/
def recordAll (jobs : List JobRec) (s : SearchStats) : SearchStats :=
  jobs.foldl (fun acc j =>
    update_search_stats acc j.guild j.author j.messages j.found j.time j.nowStr) s

/-- The module-level lowered keyword set `KEYWORD_SET` (main.py:286) is a
parameter: it is built from `CONFIG["search_keywords"]`.  The memo cache
for `keyword_match` is keyed by `hash(text) % 10000000`; Python's `hash`
is an opaque integer-valued function of the text, so it too is a
parameter.  `TTLCache` eviction only removes entries (a removal can never
make a cached answer wrong, only cause a recomputation), so the cache is
modelled without eviction. -/
abbrev KwCache := List (ℤ × Bool)

/-- `keyword_match` (main.py:289-305): check `text` against the keyword set
through the bounded memo cache; returns the answer and the updated cache. -/
def keyword_match (h : Str → ℤ) (keywordSet : List Str) (cache : KwCache)
    (text : Str) : Bool × KwCache :=
  let cache_key := h text % 10000000
  match cache.lookup cache_key with
  | some b => (b, cache)
  | none =>
    let text_lower := pyLower text
    let result := keywordSet.any (fun k => hasSub text_lower k)
    (result, (cache_key, result) :: cache)

/-- The uncached reference check: some configured (lowered) keyword is a
substring of the lowered text (the `any(k in text_lower ...)` of
main.py:301 without the cache). -/
def keywordRef (keywordSet : List Str) (text : Str) : Bool :=
  keywordSet.any (fun k => hasSub (pyLower text) k)

/-- Run a sequence of `keyword_match` calls, keeping only the cache. -/
def kwRunAll (h : Str → ℤ) (keywordSet : List Str) (texts : List Str)
    (cache : KwCache) : KwCache :=
  texts.foldl (fun c t => (keyword_match h keywordSet c t).2) cache

/-- The literal match predicate of `search_messages` (main.py:790) and
`export_results` (main.py:1509): `keyword.lower() in msg.content.lower()`. -/
def literal_match (keyword content : Str) : Bool :=
  hasSub (pyLower content) (pyLower keyword)

/-- Two strings are case variants when they agree up to letter case
(character-wise equal lowerings). -/
def CaseVariant (s t : Str) : Prop :=
  List.Forall₂ (fun a b => a.toLower = b.toLower) s t

/-- A message: author id and textual content (newest-first in histories).
Fields not consulted by any claim (timestamps, permalinks, attachments) are
omitted. -/
structure Msg where
  author : ℤ
  content : Str
deriving DecidableEq

/-- A guild text channel: identity, name, whether the bot may read it
(`permissions_for(...).read_messages`; an unreadable history fetch raises
`discord.Forbidden`), and its message history, newest first.
`history(limit=n)` yields the first `n` of `msgs`. -/
structure Channel where
  id : ℕ
  name : Str
  readable : Bool
  msgs : List Msg
deriving DecidableEq

/-- The ambient guild and platform data a command invocation sees. -/
structure GuildEnv where
  channels : List Channel
  users : List ℤ
  userName : ℤ → Str
  guildId : ℕ
  guildName : Str
  authorName : Str
  botId : ℤ

/-- `datetime.now()` readings taken during one invocation: `nowSec` at the
cooldown check, `elapsed` the measured scan duration, `nowStr` the formatted
timestamp string. -/
structure TimeEnv where
  nowSec : ℚ
  elapsed : ℚ
  nowStr : Str

/-- The module-level mutable state the commands share: the per-command
`is_running` markers, the single shared cancellation flag (its mid-run
reads go through the poll schedule instead), the cooldown dict, the stats
aggregate, and the `message_cache` (key `f"{channel_id}_{limit}"`). -/
structure BotState where
  search_running : Bool
  regex_running : Bool
  export_running : Bool
  badscan_running : Bool
  search_cancelled : Bool
  search_cooldowns : Cooldowns
  stats : SearchStats
  message_cache : List ((ℕ × ℤ) × List Msg)

/-- Responses a command invocation can produce (each models one `ctx.send` /
status-edit exit; payload strings that no claim consults are dropped). -/
inductive Resp where
  | notAdmin
  | cancelAck
  | noJobRunning
  | alreadyRunning
  | parseError
  | usage
  | userFormatError
  | userNotFound
  | cooldownWait (remainingMinutes : ℚ)
  | cooldownWaitSec (minutes seconds : ℤ)
  | noChannels
  | invalidPattern
  | badWordsFileNotFound (lang : Str)
  | badWordsEmpty (lang : Str)
  | badWordsListSample
  | badWordsListEmpty
  | couldNotFindUser (u : Str)
  | cancelled
  | completed
deriving DecidableEq

/-- What one invocation reports besides the new state: its response and the
scan-work counters. -/
structure Report where
  response : Resp
  channelsIterated : ℕ
  messagesScanned : ℕ
  matchesFound : ℕ
deriving DecidableEq

/-- `process_search_channels` (utils/search_utils.py:7-28): resolve the
channel set from include/exclude name lists, filtering for read permission
(`discord.utils.get` returns the first channel whose name equals the
specifier exactly). -/
def process_search_channels (channels : List Channel)
    (include_channels exclude_channels : List Str) : List Channel :=
  if include_channels ≠ [] then
    include_channels.foldl (fun acc ch_name =>
      match channels.find? (fun ch => ch.name == ch_name) with
      | some ch => if ch.readable then acc ++ [ch] else acc
      | none => acc) []
  else if exclude_channels ≠ [] then
    channels.filter (fun ch => !exclude_channels.contains ch.name && ch.readable)
  else
    channels.filter (·.readable)

/-- User extraction of `search_messages` (main.py:700-709): strip a
`<@...>` / `<@!...>` mention (with `.strip()`) down to the id digits, then
`int()`. -/
def extractUserIdSearch (user_arg : Str) : Option ℤ :=
  let user_id :=
    if pyStartsWith user_arg (sl "<@") ∧ pyEndsWith user_arg (sl ">") then
      let s := pyStrip (user_arg.drop 2).dropLast
      if pyStartsWith s (sl "!") then s.drop 1 else s
    else user_arg
  pyInt? user_id

/-- User extraction of `regex_search` (main.py:1184-1192) and
`export_results` (main.py:1409-1417): same as the search variant but
without `.strip()`. -/
def extractUserIdRegex (user_arg : Str) : Option ℤ :=
  let user_id :=
    if pyStartsWith user_arg (sl "<@") ∧ pyEndsWith user_arg (sl ">") then
      let s := (user_arg.drop 2).dropLast
      if pyStartsWith s (sl "!") then s.drop 1 else s
    else user_arg
  pyInt? user_id

/-- `" ".join(...)`. -/
def joinSpace (l : List Str) : Str := List.intercalate (sl " ") l

/-- Loop counters of a `search_messages` scan.  `polls` counts reads of the
shared cancellation flag, resolved through the schedule. -/
structure ScanSt where
  total_searched : ℕ
  found : List Msg
  channels_searched : ℕ
  polls : ℕ
deriving DecidableEq

/-- The per-message loop of `search_messages` (main.py:769-791): count the
message, poll the cancellation flag (`break` when set), then test
author and keyword.  The throttled `update_search_status` call is
I/O-only. -/
def searchMsgsLoop (sched : ℕ → Bool) (uid : ℤ) (keyword : Str) :
    List Msg → ScanSt → ScanSt
  | [], st => st
  | m :: rest, st =>
    let st := {st with total_searched := st.total_searched + 1}
    if sched st.polls then {st with polls := st.polls + 1}
    else
      let st := {st with polls := st.polls + 1}
      let st :=
        if m.author == uid && literal_match keyword m.content then
          {st with found := st.found ++ [m]}
        else st
      searchMsgsLoop sched uid keyword rest st

/-- The per-channel loop of `search_messages` (main.py:756-797): count the
channel, poll the cancellation flag (return `true` = cancelled when set),
then scan up to `limit` messages; a `discord.Forbidden` channel is
skipped. -/
def searchChansLoop (sched : ℕ → Bool) (uid : ℤ) (keyword : Str) (limit : ℤ) :
    List Channel → ScanSt → ScanSt × Bool
  | [], st => (st, false)
  | ch :: rest, st =>
    let st := {st with channels_searched := st.channels_searched + 1}
    if sched st.polls then ({st with polls := st.polls + 1}, true)
    else
      let st := {st with polls := st.polls + 1}
      let st :=
        if ch.readable then
          searchMsgsLoop sched uid keyword (ch.msgs.take limit.toNat) st
        else st
      searchChansLoop sched uid keyword limit rest st

/-- `search_messages` (main.py:657-829): the `!search` command.  Returns the
new shared state and the invocation's report. -/
def search_messages (env : GuildEnv) (tm : TimeEnv) (sched : ℕ → Bool)
    (admin : Bool) (args : List Str) (st : BotState) : BotState × Report :=
  if !admin then (st, ⟨.notAdmin, 0, 0, 0⟩)
  else if args.length = 1 ∧ pyLower (args.headD []) = sl "cancel" then
    if st.search_running then
      ({st with search_cancelled := true}, ⟨.cancelAck, 0, 0, 0⟩)
    else (st, ⟨.noJobRunning, 0, 0, 0⟩)
  else if st.search_running then (st, ⟨.alreadyRunning, 0, 0, 0⟩)
  else
    let st := {st with search_running := true, search_cancelled := false}
    let (processed, flags) := parse_command_args args
    let deep_search := flags.deep_search
    let query_limit := flags.query_limit.getD 500
    let custom_query := flags.query_limit.isSome
    let include_channels := flags.include_channels.getD []
    let exclude_channels := flags.exclude_channels.getD []
    if flags.error then
      ({st with search_running := false}, ⟨.parseError, 0, 0, 0⟩)
    else if processed.length < 2 then
      ({st with search_running := false}, ⟨.usage, 0, 0, 0⟩)
    else
      match extractUserIdSearch (processed.headD []) with
      | none => ({st with search_running := false}, ⟨.userFormatError, 0, 0, 0⟩)
      | some uid =>
        if !env.users.contains uid then
          ({st with search_running := false}, ⟨.userNotFound, 0, 0, 0⟩)
        else
          let keyword := joinSpace processed.tail
          let (cds, cooldown_ok, remaining) :=
            apply_cooldown st.search_cooldowns env.guildId deep_search
              custom_query tm.nowSec 5
          let st := {st with search_cooldowns := cds}
          if !cooldown_ok then
            ({st with search_running := false}, ⟨.cooldownWait remaining, 0, 0, 0⟩)
          else
            let search_channels :=
              process_search_channels env.channels include_channels exclude_channels
            if search_channels = [] then
              ({st with search_running := false}, ⟨.noChannels, 0, 0, 0⟩)
            else
              let limit : ℤ := if deep_search || custom_query then query_limit else 100
              let (stL, wasCancelled) :=
                searchChansLoop sched uid keyword limit search_channels ⟨0, [], 0, 0⟩
              if wasCancelled then
                ({st with search_running := false, search_cancelled := false},
                 ⟨.cancelled, stL.channels_searched, stL.total_searched,
                  stL.found.length⟩)
              else
                let stats' := update_search_stats st.stats env.guildName
                  env.authorName stL.total_searched stL.found.length
                  tm.elapsed tm.nowStr
                let st := {st with search_running := false,
                                   search_cancelled := false, stats := stats'}
                (st, ⟨.completed, stL.channels_searched, stL.total_searched,
                  stL.found.length⟩)

/-- `int()` applied to a float value: truncation toward zero. -/
def qTrunc (q : ℚ) : ℤ := Int.tdiv q.num q.den

/-- Model of `str.strip(c)`: drop `c` from both ends. -/
def pyStripChar (c : Char) (s : Str) : Str :=
  ((s.dropWhile (· = c)).reverse.dropWhile (· = c)).reverse

/-- Model of `str.lstrip(c)`. -/
def pyLStripChar (c : Char) (s : Str) : Str := s.dropWhile (· = c)

/-- `get_cached_messages` (main.py:261-271): read a channel history through
the bounded cache, keyed by `(channel_id, limit)` (the code's
`f"{channel_id}_{limit}"`).  A fetch from an unreadable channel raises
`discord.Forbidden` before anything is cached, modelled as `none`; a
missing channel caches nothing and returns the stale entry or `[]`.
`TTLCache` eviction is not modelled (it only forces refetches). -/
def get_cached_messages (allChannels : List Channel)
    (cache : List ((ℕ × ℤ) × List Msg)) (channel_id : ℕ) (limit : ℤ)
    (force_refresh : Bool) : List ((ℕ × ℤ) × List Msg) × Option (List Msg) :=
  let key := (channel_id, limit)
  if force_refresh || (cache.lookup key).isNone then
    match allChannels.find? (fun ch => ch.id == channel_id) with
    | some ch =>
      if ch.readable then
        let messages := ch.msgs.take limit.toNat
        ((key, messages) :: cache, some messages)
      else (cache, none)
    | none => (cache, some ((cache.lookup key).getD []))
  else (cache, some ((cache.lookup key).getD []))

/-- Loop state of a `regex_search` scan: counters plus the shared message
cache it reads through. -/
structure RegexSt where
  total_searched : ℕ
  found : List (Msg × Channel)
  channels_searched : ℕ
  polls : ℕ
  cache : List ((ℕ × ℤ) × List Msg)

/-- The channel loop of `regex_search` (main.py:1272-1297): count the
channel, poll the cancellation flag — on observing it set, increment
`cancelled_searches` is done by the caller on the `true` return — then run
the compiled pattern over the cached page; `discord.Forbidden` skips the
channel.  The inner message loop polls nothing. -/
def regexChansLoop (sched : ℕ → Bool) (patMatch : Str → Bool) (uid : ℤ)
    (limit : ℤ) (force : Bool) (allChannels : List Channel) :
    List Channel → RegexSt → RegexSt × Bool
  | [], st => (st, false)
  | ch :: rest, st =>
    let st := {st with channels_searched := st.channels_searched + 1}
    if sched st.polls then ({st with polls := st.polls + 1}, true)
    else
      let st := {st with polls := st.polls + 1}
      let (cache', msgs?) := get_cached_messages allChannels st.cache ch.id limit force
      let st := {st with cache := cache'}
      match msgs? with
      | none => regexChansLoop sched patMatch uid limit force allChannels rest st
      | some messages =>
        let st := messages.foldl (fun st m =>
          let st :=
            if m.author == uid && patMatch m.content then
              {st with found := st.found ++ [(m, ch)]}
            else st
          {st with total_searched := st.total_searched + 1}) st
        regexChansLoop sched patMatch uid limit force allChannels rest st

/-- The inline stats-update block duplicated in `regex_search`
(main.py:1322-1356) and `export_results` (main.py:1552-1587): `keyword` is
the pattern (regex) or the search keyword (export); `targetName` is the
searched user's name. -/
def inlineStatsUpdate (s : SearchStats) (guildName authorName targetName keyword : Str)
    (total_searched found_count : ℕ) (search_time : ℚ) : SearchStats :=
  let s := {s with
    total_searches := s.total_searches + 1
    total_messages_searched := s.total_messages_searched + total_searched
    total_matches_found := s.total_matches_found + found_count
    search_time_total := s.search_time_total + search_time}
  let s := {s with searches_by_guild := fun g =>
    if g = guildName then s.searches_by_guild g + 1 else s.searches_by_guild g}
  let s := {s with searches_by_user := fun u =>
    if u = authorName then s.searches_by_user u + 1 else s.searches_by_user u}
  let lastRec : PyDict :=
    [(sl "user", .str targetName), (sl "keyword", .str keyword),
     (sl "messages", .num total_searched), (sl "time", .num search_time),
     (sl "matches", .num found_count), (sl "guild", .str guildName)]
  let s := {s with last_search := some lastRec}
  if total_searched > s.largest_search.messages then
    {s with largest_search := ⟨total_searched, .num search_time, keyword, guildName⟩}
  else s

/-- Channel-set preparation of `regex_search` (main.py:1250-1263) and
`export_results` (main.py:1456-1469): names are `strip('#')`-ed; unlike
`process_search_channels` there is no read-permission filter. -/
def regexPrepChannels (channels : List Channel)
    (include_channels exclude_channels : List Str) : List Channel :=
  if include_channels ≠ [] then
    include_channels.foldl (fun acc ch_name =>
      match channels.find? (fun ch => ch.name == pyStripChar '#' ch_name) with
      | some ch => acc ++ [ch]
      | none => acc) []
  else if exclude_channels ≠ [] then
    channels.filter (fun ch =>
      !(exclude_channels.map (pyStripChar '#')).contains ch.name)
  else channels

/-- `regex_search` (main.py:1141-1362): the `!regex` command.  `patternOk`
models whether `re.compile(pattern, re.IGNORECASE)` succeeds and
`patMatch` the compiled pattern's `search` (the `re` engine is the
platform's; its semantics are not re-modelled). -/
def regex_search (env : GuildEnv) (tm : TimeEnv) (sched : ℕ → Bool)
    (patternOk : Bool) (patMatch : Str → Bool) (admin : Bool)
    (args : List Str) (st : BotState) : BotState × Report :=
  if !admin then (st, ⟨.notAdmin, 0, 0, 0⟩)
  else if args.length = 1 ∧ pyLower (args.headD []) = sl "cancel" then
    if st.regex_running then
      ({st with search_cancelled := true}, ⟨.cancelAck, 0, 0, 0⟩)
    else (st, ⟨.noJobRunning, 0, 0, 0⟩)
  else if st.regex_running then (st, ⟨.alreadyRunning, 0, 0, 0⟩)
  else
    let st := {st with search_cancelled := false}
    let (processed, flags) := parse_command_args args
    let deep_search := flags.deep_search
    let query_limit := flags.query_limit.getD 500
    let custom_query := flags.query_limit.isSome
    let include_channels := flags.include_channels.getD []
    let exclude_channels := flags.exclude_channels.getD []
    if flags.error then (st, ⟨.parseError, 0, 0, 0⟩)
    else if processed.length < 2 then (st, ⟨.usage, 0, 0, 0⟩)
    else
      match extractUserIdRegex (processed.headD []) with
      | none => (st, ⟨.userFormatError, 0, 0, 0⟩)
      | some uid =>
        if !env.users.contains uid then (st, ⟨.userNotFound, 0, 0, 0⟩)
        else if !patternOk then (st, ⟨.invalidPattern, 0, 0, 0⟩)
        else
          let regex_pattern := joinSpace processed.tail
          -- main.py:1210-1221: deep-search cooldown (10 minutes, seconds-based);
          -- `deep_searches` is incremented before the rejection test.
          let cooldownStep : BotState × Option Resp :=
            if deep_search || custom_query then
              let st := {st with stats :=
                {st.stats with deep_searches := st.stats.deep_searches + 1}}
              match st.search_cooldowns.lookup env.guildId with
              | some last =>
                let time_diff := tm.nowSec - last
                if time_diff < 600 then
                  let remaining := qTrunc (600 - time_diff)
                  (st, some (.cooldownWaitSec (Int.fdiv remaining 60) (Int.fmod remaining 60)))
                else
                  ({st with search_cooldowns := (env.guildId, tm.nowSec) :: st.search_cooldowns}, none)
              | none =>
                ({st with search_cooldowns := (env.guildId, tm.nowSec) :: st.search_cooldowns}, none)
            else (st, none)
          match cooldownStep with
          | (st, some resp) => (st, ⟨resp, 0, 0, 0⟩)
          | (st, none) =>
            let st := {st with regex_running := true}
            let search_channels :=
              regexPrepChannels env.channels include_channels exclude_channels
            let (stL, wasCancelled) :=
              regexChansLoop sched patMatch uid query_limit deep_search
                env.channels search_channels ⟨0, [], 0, 0, st.message_cache⟩
            if wasCancelled then
              let stats' := {st.stats with
                cancelled_searches := st.stats.cancelled_searches + 1}
              let st := {st with regex_running := false,
                                 search_cancelled := false, stats := stats',
                                 message_cache := stL.cache}
              (st, ⟨.cancelled, stL.channels_searched, stL.total_searched,
                stL.found.length⟩)
            else
              let stats' := inlineStatsUpdate st.stats env.guildName
                env.authorName (env.userName uid) regex_pattern
                stL.total_searched stL.found.length tm.elapsed
              let st := {st with regex_running := false,
                                 search_cancelled := false, stats := stats',
                                 message_cache := stL.cache}
              (st, ⟨.completed, stL.channels_searched, stL.total_searched,
                stL.found.length⟩)

/-- Loop state of an `export_results` scan. -/
structure ExportSt where
  total_searched : ℕ
  found : List (Msg × Channel)
  channels_searched : ℕ
  polls : ℕ
deriving DecidableEq

/-- The channel loop of `export_results` (main.py:1477-1513): count the
channel, poll the cancellation flag (return cancelled when set), collect up
to the limit counting every collected message, then filter for
author-and-keyword matches; `discord.Forbidden` skips the channel. -/
def exportChansLoop (sched : ℕ → Bool) (uid : ℤ) (keyword : Str)
    (limitN : ℕ) : List Channel → ExportSt → ExportSt × Bool
  | [], st => (st, false)
  | ch :: rest, st =>
    let st := {st with channels_searched := st.channels_searched + 1}
    if sched st.polls then ({st with polls := st.polls + 1}, true)
    else
      let st := {st with polls := st.polls + 1}
      let st :=
        if ch.readable then
          let messages := ch.msgs.take limitN
          let st := {st with total_searched := st.total_searched + messages.length}
          {st with found := st.found ++
            (messages.filter (fun m =>
              m.author == uid && literal_match keyword m.content)).map (fun m => (m, ch))}
        else st
      exportChansLoop sched uid keyword limitN rest st

/-- `export_results` (main.py:1365-1595): the `!export` command.  File
writing is I/O-only and not modelled. -/
def export_results (env : GuildEnv) (tm : TimeEnv) (sched : ℕ → Bool)
    (admin : Bool) (args : List Str) (st : BotState) : BotState × Report :=
  if !admin then (st, ⟨.notAdmin, 0, 0, 0⟩)
  else if args.length = 1 ∧ pyLower (args.headD []) = sl "cancel" then
    if st.export_running then
      ({st with search_cancelled := true}, ⟨.cancelAck, 0, 0, 0⟩)
    else (st, ⟨.noJobRunning, 0, 0, 0⟩)
  else if st.export_running then (st, ⟨.alreadyRunning, 0, 0, 0⟩)
  else
    let st := {st with search_cancelled := false}
    let (processed, flags) := parse_command_args args
    let deep_search := flags.deep_search
    let query_limit := flags.query_limit.getD 500
    let custom_query := flags.query_limit.isSome
    let include_channels := flags.include_channels.getD []
    let exclude_channels := flags.exclude_channels.getD []
    if flags.error then (st, ⟨.parseError, 0, 0, 0⟩)
    else if processed.length < 2 then (st, ⟨.usage, 0, 0, 0⟩)
    else
      match extractUserIdRegex (processed.headD []) with
      | none => (st, ⟨.userFormatError, 0, 0, 0⟩)
      | some uid =>
        if !env.users.contains uid then (st, ⟨.userNotFound, 0, 0, 0⟩)
        else
          let keyword := joinSpace processed.tail
          -- main.py:1432-1444: same 10-minute seconds-based cooldown as
          -- regex_search, but without the deep_searches increment.
          let cooldownStep : BotState × Option Resp :=
            if deep_search || custom_query then
              match st.search_cooldowns.lookup env.guildId with
              | some last =>
                let time_diff := tm.nowSec - last
                if time_diff < 600 then
                  let remaining := qTrunc (600 - time_diff)
                  (st, some (.cooldownWaitSec (Int.fdiv remaining 60) (Int.fmod remaining 60)))
                else
                  ({st with search_cooldowns := (env.guildId, tm.nowSec) :: st.search_cooldowns}, none)
              | none =>
                ({st with search_cooldowns := (env.guildId, tm.nowSec) :: st.search_cooldowns}, none)
            else (st, none)
          match cooldownStep with
          | (st, some resp) => (st, ⟨resp, 0, 0, 0⟩)
          | (st, none) =>
            let st := {st with export_running := true}
            let search_channels :=
              regexPrepChannels env.channels include_channels exclude_channels
            let limitN : ℕ :=
              if deep_search || custom_query then query_limit.toNat else 100
            let (stL, wasCancelled) :=
              exportChansLoop sched uid keyword limitN search_channels ⟨0, [], 0, 0⟩
            if wasCancelled then
              let st := {st with export_running := false, search_cancelled := false}
              (st, ⟨.cancelled, stL.channels_searched, stL.total_searched,
                stL.found.length⟩)
            else
              let stats' := inlineStatsUpdate st.stats env.guildName
                env.authorName (env.userName uid) keyword
                stL.total_searched stL.found.length tm.elapsed
              let st := {st with export_running := false,
                                 search_cancelled := false, stats := stats'}
              (st, ⟨.completed, stL.channels_searched, stL.total_searched,
                stL.found.length⟩)

/-- Model of `str.replace(sub, repl)` (all non-overlapping occurrences, left
to right).  `fuel` only makes the recursion structural: every step consumes
at least one character of the source, so `fuel = s.length` computes the
replacement exactly (`sub` is never empty at the call sites). -/
def pyReplaceAux (sub repl : Str) : ℕ → Str → Str
  | _, [] => []
  | 0, s => s
  | fuel + 1, c :: t =>
    if sub.isPrefixOf (c :: t) ∧ sub ≠ [] then
      repl ++ pyReplaceAux sub repl fuel (t.drop (sub.length - 1))
    else
      c :: pyReplaceAux sub repl fuel t

/-- `s.replace(sub, repl)`. -/
def pyReplace (s sub repl : Str) : Str := pyReplaceAux sub repl s.length s

/-- The `low` strictness branch of `text_contains_bad_word`
(main.py:1967-1971): exact whole-token matching against the lowered text
(`text` is lowered at the function top; the stored words are lowered at
load).  The Python set's iteration order is modelled by the list order. -/
def text_contains_bad_word_low (bad_words : List Str) (text : Str) : List Str :=
  let t := pyLower text
  bad_words.filter (fun word =>
    hasSub (sl " " ++ t ++ sl " ") (sl " " ++ word ++ sl " ") || t == word ||
      pyStartsWith t (word ++ sl " ") || pyEndsWith t (sl " " ++ word))

/-- `text_contains_bad_word` (main.py:1962-1988).  The `medium` and `high`
branches run compiled `re` patterns; the regex engine is the platform's, so
those two branches are abstracted by the `mediumHigh` parameter
(strictness, word set, text → matched words).  Every claim here exercises
only the executable `low` branch. -/
def text_contains_bad_word (mediumHigh : Str → List Str → Str → List Str)
    (bad_words : List Str) (strictness : Str) (text : Str) : List Str :=
  if strictness = sl "low" then text_contains_bad_word_low bad_words text
  else mediumHigh strictness bad_words text

/-- A stored `found_messages` entry of the bad-word scan (main.py:2041-2051):
the message, its display-processed content, and the matched words.  Fields
that merely copy message metadata are represented by the message itself. -/
structure BadRec where
  msg : Msg
  content : Str
  matched_words : List Str
deriving DecidableEq

/-- Content processing for a stored match (main.py:2033-2038): truncate to
297 chars plus ellipsis when over 300, then strip markdown backticks. -/
def badRecContent (content : Str) : Str :=
  let content := if content.length > 300 then content.take 297 ++ sl "..." else content
  pyReplace (pyReplace content (sl "```") (sl "'''")) (sl "`") (sl "'")

/-- Loop counters of a bad-word scan. -/
structure BadSt where
  total_messages : ℕ
  found : List BadRec
  channels_searched : ℕ
  polls : ℕ
deriving DecidableEq

/-- The per-message loop of `scan_bad_words` (main.py:2010-2055): skip the
bot's own and non-target messages (without counting them), count the
message, store a record when the checker matches, then `break` when the
cancellation flag is set or the stored matches have reached the 1000 cap.
The cap check runs only after a counted message. -/
def badScanMsgsLoop (sched : ℕ → Bool) (check : Str → List Str) (botId : ℤ)
    (userFilter : Option ℤ) : List Msg → BadSt → BadSt
  | [], st => st
  | m :: rest, st =>
    if m.author == botId then badScanMsgsLoop sched check botId userFilter rest st
    else if (match userFilter with | some u => m.author != u | none => false) then
      badScanMsgsLoop sched check botId userFilter rest st
    else
      let st := {st with total_messages := st.total_messages + 1}
      let st :=
        if check m.content ≠ [] then
          {st with found := st.found ++
            [⟨m, badRecContent m.content, check m.content⟩]}
        else st
      if sched st.polls || st.found.length ≥ 1000 then
        {st with polls := st.polls + 1}
      else
        badScanMsgsLoop sched check botId userFilter rest {st with polls := st.polls + 1}

/-- The per-channel loop of `scan_bad_words` (main.py:1991-2060): poll the
cancellation flag (`break` ends the whole loop), count the channel, then
scan its page; `discord.Forbidden`/`HTTPException` skip the channel.  Note
that reaching the 1000-match cap only breaks the inner loop: the outer loop
continues with the next channel. -/
def badScanChansLoop (sched : ℕ → Bool) (check : Str → List Str) (botId : ℤ)
    (userFilter : Option ℤ) (limitN : ℕ) : List Channel → BadSt → BadSt
  | [], st => st
  | ch :: rest, st =>
    if sched st.polls then {st with polls := st.polls + 1}
    else
      let st := {st with polls := st.polls + 1,
                         channels_searched := st.channels_searched + 1}
      let st :=
        if ch.readable then
          badScanMsgsLoop sched check botId userFilter (ch.msgs.take limitN) st
        else st
      badScanChansLoop sched check botId userFilter limitN rest st

/-- The `--export` flag scan of `scan_bad_words` (main.py:1789-1803):
`(export_results, export_format)` accumulated over the enumerated raw
arguments. -/
def badScanExportFold (args : List Str) : Bool × Str :=
  args.enum.foldl (fun acc p =>
    let (i, arg) := p
    if arg = sl "--export" ∨ arg = sl "-e" then
      let fmt :=
        if i + 1 < args.length ∧ !pyStartsWith (args.getD (i + 1) []) (sl "--") then
          let format_value := pyLower (args.getD (i + 1) [])
          if format_value = sl "txt" ∨ format_value = sl "csv" ∨ format_value = sl "json" then
            format_value
          else acc.2
        else acc.2
      (true, fmt)
    else if pyStartsWith arg (sl "--export=") ∨ pyStartsWith arg (sl "-e=") then
      let format_value := pyLower ((splitOnChar '=' arg).getD 1 [])
      if format_value = sl "txt" ∨ format_value = sl "csv" ∨ format_value = sl "json" then
        (true, format_value)
      else (true, acc.2)
    else acc) (false, sl "txt")

/-- The `--in` flag scan of `scan_bad_words` (main.py:1829-1835), collected
from the raw arguments. -/
def badScanIncludeFold (args : List Str) : List Str :=
  args.enum.foldl (fun acc p =>
    let (i, arg) := p
    if arg = sl "--in" ∧ i + 1 < args.length then acc ++ [args.getD (i + 1) []]
    else if pyStartsWith arg (sl "--in=") then acc ++ [arg.drop 5]
    else acc) []

/-- A `--flag value` / `--flag=value` scan where the last occurrence wins,
as used for `--strictness` (main.py:1839-1843) and `--lang`
(main.py:1847-1851).  `pre` is the `--flag=` prefix and `flag` the bare
form. -/
def lastValueFold (pre flag : Str) (dflt : Str) (args : List Str) : Str :=
  args.enum.foldl (fun acc p =>
    let (i, arg) := p
    if pyStartsWith arg pre then arg.drop pre.length
    else if arg = flag ∧ i + 1 < args.length then args.getD (i + 1) []
    else acc) dflt

/-- Target-user resolution of `scan_bad_words` (main.py:1876-1902): scan the
raw arguments for `--user=`/`--user`; a mention is stripped by chained
`str.replace` calls; a `ValueError` from `int()` or a failed `fetch_user`
sends "Could not find user" and returns from the command. -/
def badScanUserFold (users : List ℤ) (args : List Str) : Except Str (Option ℤ) :=
  let resolve : Str → Except Str (Option ℤ) := fun user_input =>
    let idStr :=
      if pyStartsWith user_input (sl "<@") ∧ pyEndsWith user_input (sl ">") then
        pyReplace (pyReplace (pyReplace user_input (sl "<@") []) (sl "<@!") []) (sl ">") []
      else user_input
    match pyInt? idStr with
    | some uid => if users.contains uid then .ok (some uid) else .error user_input
    | none => .error user_input
  args.enum.foldl (fun acc p =>
    match acc with
    | .error e => .error e
    | .ok cur =>
      let (i, arg) := p
      if pyStartsWith arg (sl "--user=") then resolve (arg.drop 7)
      else if arg = sl "--user" ∧ i + 1 < args.length then
        resolve (args.getD (i + 1) [])
      else .ok cur) (.ok none)

/-- Channel-set preparation of `scan_bad_words` (main.py:1904-1942):
`<#id>` mentions resolve by id (readable text channels only); everything
else — including failed mentions — is looked up by name after `lstrip('#')`
with a readability check. -/
def badScanPrepChannels (channels : List Channel) (include_channels : List Str) :
    List Channel :=
  let step := include_channels.foldl (fun (acc : List Channel × List Str) ch_item =>
    if pyStartsWith ch_item (sl "<#") ∧ pyEndsWith ch_item (sl ">") then
      match pyInt? ((ch_item.drop 2).dropLast) with
      | some cid =>
        match channels.find? (fun ch => (ch.id : ℤ) == cid) with
        | some ch =>
          if ch.readable then (acc.1 ++ [ch], acc.2) else (acc.1, acc.2 ++ [ch_item])
        | none => (acc.1, acc.2 ++ [ch_item])
      | none => (acc.1, acc.2 ++ [ch_item])
    else (acc.1, acc.2 ++ [ch_item])) ([], [])
  step.2.foldl (fun acc ch_name =>
    match channels.find? (fun ch => ch.name == pyLStripChar '#' ch_name) with
    | some ch => if ch.readable then acc ++ [ch] else acc
    | none => acc) step.1

/-- `scan_bad_words` (main.py:1769-2124): the `!badscan` command.
`bad_words_en` is the module-level `BAD_WORDS` set loaded at startup;
`fileWords` is the filesystem (`utils/badwords_<lang>.txt` → its lines);
`mediumHigh` abstracts the regex-based strictness branches (see
`text_contains_bad_word`). -/
def scan_bad_words (env : GuildEnv) (sched : ℕ → Bool)
    (bad_words_en : List Str) (fileWords : Str → Option (List Str))
    (mediumHigh : Str → List Str → Str → List Str) (admin : Bool)
    (args : List Str) (st : BotState) : BotState × Report :=
  if !admin then (st, ⟨.notAdmin, 0, 0, 0⟩)
  else
    let (processed, flags) := parse_command_args args
    if args.contains (sl "--list") || args.contains (sl "-l") ||
        processed.any (fun a => a == sl "list") then
      if bad_words_en = [] then (st, ⟨.badWordsListEmpty, 0, 0, 0⟩)
      else (st, ⟨.badWordsListSample, 0, 0, 0⟩)
    else
      -- main.py:1789-1803 (export flags; computed before the cancel check)
      let _export := badScanExportFold args
      if processed.contains (sl "cancel") then
        if st.badscan_running then
          ({st with search_cancelled := true}, ⟨.cancelAck, 0, 0, 0⟩)
        else (st, ⟨.noJobRunning, 0, 0, 0⟩)
      else if st.badscan_running then (st, ⟨.alreadyRunning, 0, 0, 0⟩)
      else
        let st := {st with badscan_running := true, search_cancelled := false}
        let query_limit := flags.query_limit.getD 500
        let include_channels := badScanIncludeFold args
        let strictness := lastValueFold (sl "--strictness=") (sl "--strictness") (sl "medium") args
        let lang := lastValueFold (sl "--lang=") (sl "--lang") (sl "en") args
        let strictness :=
          if strictness = sl "low" ∨ strictness = sl "medium" ∨ strictness = sl "high" then
            strictness
          else sl "medium"
        let bad_words_path := sl "utils/badwords_" ++ lang ++ sl ".txt"
        let bad_words? : Except Resp (List Str) :=
          if lang ≠ sl "en" ∨ bad_words_en = [] then
            match fileWords bad_words_path with
            | some lines =>
              .ok (lines.filterMap (fun line =>
                if pyStrip line ≠ [] then some (pyLower (pyStrip line)) else none))
            | none => .error (.badWordsFileNotFound lang)
          else .ok bad_words_en
        match bad_words? with
        | .error resp =>
          -- main.py:1864-1867: returns WITHOUT resetting is_running
          (st, ⟨resp, 0, 0, 0⟩)
        | .ok bad_words =>
          if bad_words = [] then
            -- main.py:1872-1873: returns WITHOUT resetting is_running
            (st, ⟨.badWordsEmpty lang, 0, 0, 0⟩)
          else
            match badScanUserFold env.users args with
            | .error u =>
              -- main.py:1889/1902: returns WITHOUT resetting is_running
              (st, ⟨.couldNotFindUser u, 0, 0, 0⟩)
            | .ok userFilter =>
              let search_channels :=
                if include_channels ≠ [] then
                  badScanPrepChannels env.channels include_channels
                else env.channels.filter (·.readable)
              if include_channels ≠ [] ∧ search_channels = [] then
                ({st with badscan_running := false}, ⟨.noChannels, 0, 0, 0⟩)
              else if search_channels = [] then
                ({st with badscan_running := false}, ⟨.noChannels, 0, 0, 0⟩)
              else
                let check := text_contains_bad_word mediumHigh bad_words strictness
                let stL := badScanChansLoop sched check env.botId userFilter
                  query_limit.toNat search_channels ⟨0, [], 0, 0⟩
                let st := {st with badscan_running := false, search_cancelled := false}
                (st, ⟨.completed, stL.channels_searched, stL.total_messages,
                  stL.found.length⟩)

/-- The six flag names that consume a following value in
`parse_command_args`'s first chain (main.py:333-345). -/
def isValueFlag (s : Str) : Bool :=
  s = sl "--q" || s = sl "--query" || s = sl "--in" || s = sl "--channel" ||
    s = sl "--exclude" || s = sl "--not"

/-- The flag fields set by the first `if`/`elif` chain of
`parse_command_args` (query limit, parse error, channel lists, deep
search), bundled for comparison across runs. -/
def flagsCore (fl : CmdFlags) :
    Option ℤ × Bool × Option (List Str) × Option (List Str) × Bool :=
  (fl.query_limit, fl.error, fl.include_channels, fl.exclude_channels,
   fl.deep_search)

/-- A small concrete guild used to evaluate the command models: one
readable channel, one known user (id 5), bot id 0. -/
def witnessEnv : GuildEnv where
  channels := [⟨1, sl "general", true, [⟨5, sl "hello"⟩]⟩]
  users := [5]
  userName := fun _ => sl "target"
  guildId := 9
  guildName := sl "guild"
  authorName := sl "author"
  botId := 0

/-- Concrete clock readings for witness runs. -/
def witnessTime : TimeEnv := ⟨0, 0, sl "now"⟩

/-- The idle initial shared state: nothing running, no cancellation
requested, empty cooldowns and caches, zero stats. -/
def idleState : BotState :=
  ⟨false, false, false, false, false, [], zeroStats, []⟩

/-- A channel holding 1000 messages that each match the bad word "x"
(author 1, so not the bot), used to drive the bad-word scan to its result
cap. -/
def capCh1 : Channel := ⟨1, sl "a", true, List.replicate 1000 ⟨1, sl "x"⟩⟩

/-- A second channel with one further message, scanned after the cap is
already reached. -/
def capCh2 : Channel := ⟨2, sl "b", true, [⟨1, sl "y"⟩]⟩

/-- A stored-match list already at the 1000 result cap. -/
def capFound : List BadRec := List.replicate 1000 ⟨⟨1, sl "x"⟩, sl "x", [sl "x"]⟩

/-- Every entry of the `keyword_match` memo cache is the truncated hash and
reference answer of some already-queried text. -/
def CacheInv (h : Str → ℤ) (keywordSet : List Str) (queried : List Str)
    (cache : KwCache) : Prop :=
  ∀ k b, (k, b) ∈ cache →
    ∃ t, t ∈ queried ∧ k = h t % 10000000 ∧ b = keywordRef keywordSet t

/-! ## Theorems -/

theorem lookup_mem {α β : Type} [BEq α] [LawfulBEq α] :
    ∀ {l : List (α × β)} {k : α} {b : β}, l.lookup k = some b → (k, b) ∈ l := by
  intro l
  induction l with
  | nil => intro k b h; simp [List.lookup] at h
  | cons p t ih =>
    intro k b h
    obtain ⟨a, v⟩ := p
    rw [List.lookup] at h
    by_cases hk : (k == a) = true
    · rw [hk] at h
      obtain rfl : v = b := by simpa using h
      have : k = a := by simpa using hk
      subst this
      exact List.mem_cons_self _ _
    · rw [Bool.not_eq_true] at hk
      rw [hk] at h
      exact List.mem_cons_of_mem _ (ih h)

/-- C2: the cooldown gate (`apply_cooldown`): non-expensive requests pass
untouched with zero wait; an expensive request passes (recording `now`) iff
the guild has no recorded timestamp or at least the window has elapsed,
and is otherwise rejected without any update, with a strictly positive
remaining wait equal to the window minus the elapsed minutes. -/
theorem apply_cooldown_spec (cds : Cooldowns) (guild : ℕ) (deep custom : Bool)
    (now cdm : ℚ) :
    (¬(deep = true ∨ custom = true) →
      apply_cooldown cds guild deep custom now cdm = (cds, true, 0))
    ∧ ((deep = true ∨ custom = true) →
      (cds.lookup guild = none →
        apply_cooldown cds guild deep custom now cdm = ((guild, now) :: cds, true, 0))
      ∧ (∀ last, cds.lookup guild = some last →
        (cdm ≤ (now - last) / 60 →
          apply_cooldown cds guild deep custom now cdm = ((guild, now) :: cds, true, 0))
        ∧ ((now - last) / 60 < cdm →
          apply_cooldown cds guild deep custom now cdm
              = (cds, false, cdm - (now - last) / 60)
            ∧ 0 < cdm - (now - last) / 60))) := by
  constructor
  · intro h
    have hb : (deep || custom) = false := by
      cases deep <;> cases custom <;> simp_all
    simp [apply_cooldown, hb]
  · intro h
    have hb : (deep || custom) = true := by
      rcases h with h | h <;> simp [h]
    refine ⟨fun hl => by simp [apply_cooldown, hb, hl], ?_⟩
    intro last hl
    constructor
    · intro hle
      have hnlt : ¬((now - last) / 60 < cdm) := not_lt.mpr hle
      simp [apply_cooldown, hb, hl, hnlt]
    · intro hlt
      exact ⟨by simp [apply_cooldown, hb, hl, hlt], by linarith⟩

/-- Witness for `apply_cooldown_spec` at concrete inputs: a non-expensive
call, an expensive call with no recorded timestamp, and an expensive call
rejected inside the window. -/
theorem apply_cooldown_spec_witness :
    apply_cooldown [] 1 false false 0 5 = ([], true, 0)
    ∧ apply_cooldown [] 1 true false 0 5 = ([(1, 0)], true, 0)
    ∧ apply_cooldown [(1, 0)] 1 true false 0 5 = ([(1, 0)], false, 5 - (0 - 0) / 60)
    ∧ (0 : ℚ) < 5 - (0 - 0) / 60 := by
  refine ⟨(apply_cooldown_spec [] 1 false false 0 5).1 (by simp),
    ((apply_cooldown_spec [] 1 true false 0 5).2 (Or.inl rfl)).1 rfl, ?_, ?_⟩
  · exact ((((apply_cooldown_spec [(1, 0)] 1 true false 0 5).2 (Or.inl rfl)).2 0
      rfl).2 (by norm_num)).1
  · exact ((((apply_cooldown_spec [(1, 0)] 1 true false 0 5).2 (Or.inl rfl)).2 0
      rfl).2 (by norm_num)).2

theorem caseVariant_pyLower {s t : Str} (h : CaseVariant s t) :
    pyLower s = pyLower t := by
  induction h with
  | nil => rfl
  | cons hab _ ih => simp [pyLower] at ih ⊢; exact ⟨hab, ih⟩

/-- C5: the literal match predicate (`keyword.lower() in content.lower()`,
main.py:790 and main.py:1509) holds iff the lowered keyword is a substring
of the lowered content, and is invariant under changing the case of either
the keyword or the content. -/
theorem literal_match_spec (k c : Str) :
    (literal_match k c = true ↔ hasSub (pyLower c) (pyLower k) = true)
    ∧ ∀ k' c', CaseVariant k k' → CaseVariant c c' →
        literal_match k' c' = literal_match k c := by
  refine ⟨Iff.rfl, fun k' c' hk hc => ?_⟩
  unfold literal_match
  rw [caseVariant_pyLower hk, caseVariant_pyLower hc]

/-- Witness for `literal_match_spec`: recasing both the keyword and the
content of a concrete matching pair leaves the result `true`. -/
theorem literal_match_spec_witness :
    literal_match (sl "fOO") (sl "XfooY") = literal_match (sl "Foo") (sl "xFOOy")
    ∧ literal_match (sl "Foo") (sl "xFOOy") = true := by
  constructor
  · exact (literal_match_spec (sl "Foo") (sl "xFOOy")).2 (sl "fOO") (sl "XfooY")
      (by simp [CaseVariant, sl]) (by simp [CaseVariant, sl])
  · decide

theorem update_search_stats_total (s : SearchStats) (g a : Str) (m f : ℕ)
    (t : ℚ) (n : Str) :
    (update_search_stats s g a m f t n).total_messages_searched
      = s.total_messages_searched + m := by
  dsimp only [update_search_stats]
  split <;> rfl

theorem update_search_stats_largest (s : SearchStats) (g a : Str) (m f : ℕ)
    (t : ℚ) (n : Str) :
    (update_search_stats s g a m f t n).largest_search.messages
      = max s.largest_search.messages m := by
  dsimp only [update_search_stats]
  split
  · next h => simp at h ⊢; omega
  · next h => simp at h ⊢; omega

theorem recordAll_total (jobs : List JobRec) (s : SearchStats) :
    (recordAll jobs s).total_messages_searched
      = s.total_messages_searched + (jobs.map (·.messages)).sum := by
  induction jobs generalizing s with
  | nil => simp [recordAll]
  | cons j t ih =>
    simp only [recordAll, List.foldl_cons, List.map_cons, List.sum_cons]
    rw [show ∀ l s', List.foldl _ s' l = recordAll l s' from fun _ _ => rfl, ih,
      update_search_stats_total]
    omega

theorem recordAll_largest (jobs : List JobRec) (s : SearchStats) :
    (recordAll jobs s).largest_search.messages
      = (jobs.map (·.messages)).foldl max s.largest_search.messages := by
  induction jobs generalizing s with
  | nil => simp [recordAll]
  | cons j t ih =>
    simp only [recordAll, List.foldl_cons, List.map_cons]
    rw [show ∀ l s', List.foldl _ s' l = recordAll l s' from fun _ _ => rfl, ih,
      update_search_stats_largest]

theorem le_foldl_max (l : List ℕ) (a : ℕ) : a ≤ l.foldl max a := by
  induction l generalizing a with
  | nil => simp
  | cons x t ih => exact le_trans (Nat.le_max_left a x) (ih (max a x))

theorem mem_le_foldl_max {x : ℕ} {l : List ℕ} (hx : x ∈ l) (a : ℕ) :
    x ≤ l.foldl max a := by
  induction l generalizing a with
  | nil => cases hx
  | cons y t ih =>
    rcases List.mem_cons.mp hx with rfl | hx
    · exact le_trans (Nat.le_max_right a x) (le_foldl_max t _)
    · exact ih hx _

theorem foldl_max_mem (l : List ℕ) (a : ℕ) :
    l.foldl max a = a ∨ l.foldl max a ∈ l := by
  induction l generalizing a with
  | nil => exact Or.inl rfl
  | cons x t ih =>
    rcases ih (max a x) with h | h
    · rcases Nat.le_total a x with hax | hxa
      · right
        rw [List.foldl_cons, h, Nat.max_eq_right hax]
        exact List.mem_cons_self _ _
      · left
        rw [List.foldl_cons, h, Nat.max_eq_left hxa]
    · right
      exact List.mem_cons_of_mem _ h

/-- C8: starting from the zero-valued aggregate, after recording jobs with
message counts `m1..mN` through `update_search_stats`,
`total_messages_searched` is their sum and `largest_search.messages` is
their maximum (it is one of the counts and bounds them all). -/
theorem stats_sum_and_largest (jobs : List JobRec) (h : jobs ≠ []) :
    (recordAll jobs zeroStats).total_messages_searched
        = (jobs.map (·.messages)).sum
    ∧ (recordAll jobs zeroStats).largest_search.messages ∈ jobs.map (·.messages)
    ∧ ∀ m ∈ jobs.map (·.messages),
        m ≤ (recordAll jobs zeroStats).largest_search.messages := by
  have htot := recordAll_total jobs zeroStats
  have hlar := recordAll_largest jobs zeroStats
  have hzero : zeroStats.total_messages_searched = 0 := rfl
  have hzl : zeroStats.largest_search.messages = 0 := rfl
  refine ⟨by rw [htot, hzero, Nat.zero_add], ?_, ?_⟩
  · rw [hlar, hzl]
    rcases foldl_max_mem (jobs.map (·.messages)) 0 with h0 | hmem
    · obtain ⟨j, t, rfl⟩ : ∃ j t, jobs = j :: t := by
        cases jobs with
        | nil => exact absurd rfl h
        | cons j t => exact ⟨j, t, rfl⟩
      have hhead : j.messages ∈ (j :: t : List JobRec).map (·.messages) := by simp
      have hle := mem_le_foldl_max hhead 0
      rw [h0] at hle
      have : j.messages = 0 := Nat.le_zero.mp hle
      rw [h0, ← this]
      exact hhead
    · exact hmem
  · intro m hm
    rw [hlar, hzl]
    exact mem_le_foldl_max hm 0

/-- Witness for `stats_sum_and_largest` on the concrete job sequence with
message counts 3, 7, 2. -/
theorem stats_sum_and_largest_witness :
    (recordAll [⟨3, 0, 0, [], [], []⟩, ⟨7, 1, 0, [], [], []⟩, ⟨2, 0, 0, [], [], []⟩]
        zeroStats).total_messages_searched = [3, 7, 2].sum
    ∧ (recordAll [⟨3, 0, 0, [], [], []⟩, ⟨7, 1, 0, [], [], []⟩, ⟨2, 0, 0, [], [], []⟩]
        zeroStats).largest_search.messages ∈ [3, 7, 2]
    ∧ ∀ m ∈ [3, 7, 2],
        m ≤ (recordAll [⟨3, 0, 0, [], [], []⟩, ⟨7, 1, 0, [], [], []⟩,
          ⟨2, 0, 0, [], [], []⟩] zeroStats).largest_search.messages := by
  have := stats_sum_and_largest
    [⟨3, 0, 0, [], [], []⟩, ⟨7, 1, 0, [], [], []⟩, ⟨2, 0, 0, [], [], []⟩]
    (by simp)
  simpa using this

theorem keyword_match_cacheInv {h : Str → ℤ} {ks : List Str} {queried : List Str}
    {cache : KwCache} (hinv : CacheInv h ks queried cache) (t : Str) :
    CacheInv h ks (queried ++ [t]) (keyword_match h ks cache t).2 := by
  intro k b hkb
  unfold keyword_match at hkb
  dsimp only at hkb
  rcases hl : cache.lookup (h t % 10000000) with _ | v
  · rw [hl] at hkb
    dsimp only at hkb
    rcases List.mem_cons.mp hkb with hnew | hold
    · obtain ⟨h1, h2⟩ := Prod.mk.inj hnew
      subst h1; subst h2
      exact ⟨t, by simp, rfl, rfl⟩
    · obtain ⟨u, hu, rfl, rfl⟩ := hinv _ _ hold
      exact ⟨u, by simp [hu], rfl, rfl⟩
  · rw [hl] at hkb
    dsimp only at hkb
    obtain ⟨u, hu, rfl, rfl⟩ := hinv _ _ hkb
    exact ⟨u, by simp [hu], rfl, rfl⟩

theorem kwRunAll_cacheInv (h : Str → ℤ) (ks : List Str) :
    ∀ (texts queried : List Str) (cache : KwCache),
      CacheInv h ks queried cache →
      CacheInv h ks (queried ++ texts) (kwRunAll h ks texts cache) := by
  intro texts
  induction texts with
  | nil => intro queried cache hinv; simpa [kwRunAll] using hinv
  | cons t rest ih =>
    intro queried cache hinv
    have step := keyword_match_cacheInv hinv t
    have := ih (queried ++ [t]) _ step
    simpa [kwRunAll, List.append_assoc] using this

/-- C6 (amended): `keyword_match` returns the uncached reference answer for
every cache state reachable by a prior sequence of calls, PROVIDED no two
of the involved texts (the prior queries and the current one) collide on
the truncated hash while having different reference answers.  A collision
between texts with different answers makes the memoization return the
earlier text's cached answer instead (see
`keyword_match_collision_counterexample`). -/
theorem keyword_match_no_collision_correct (h : Str → ℤ) (ks : List Str)
    (prior : List Str) (text : Str)
    (hcoll : ∀ t₁ t₂, t₁ ∈ text :: prior → t₂ ∈ text :: prior →
      h t₁ % 10000000 = h t₂ % 10000000 →
      keywordRef ks t₁ = keywordRef ks t₂) :
    (keyword_match h ks (kwRunAll h ks prior []) text).1 = keywordRef ks text := by
  have hinv : CacheInv h ks prior (kwRunAll h ks prior []) := by
    have base : CacheInv h ks [] [] := by intro k b hkb; cases hkb
    simpa using kwRunAll_cacheInv h ks prior [] [] base
  unfold keyword_match
  dsimp only
  rcases hl : (kwRunAll h ks prior []).lookup (h text % 10000000) with _ | v
  · rfl
  · obtain ⟨u, hu, hk, hv⟩ := hinv _ _ (lookup_mem hl)
    subst hv
    exact hcoll u text (List.mem_cons_of_mem _ hu) (List.mem_cons_self _ _) hk.symm

/-- Witness for `keyword_match_no_collision_correct`: with an injective-mod
hash on the two involved texts, the cached second query still answers
correctly. -/
theorem keyword_match_no_collision_correct_witness :
    (keyword_match (fun t => t.length) [sl "foo"]
        (kwRunAll (fun t => t.length) [sl "foo"] [sl "foo"] []) (sl "ba")).1
      = keywordRef [sl "foo"] (sl "ba") := by
  refine keyword_match_no_collision_correct (fun t => t.length) [sl "foo"]
    [sl "foo"] (sl "ba") ?_
  intro t₁ t₂ h1 h2 hhash
  simp [sl] at h1 h2
  rcases h1 with rfl | rfl <;> rcases h2 with rfl | rfl <;> first
    | rfl
    | (exfalso; revert hhash; decide)

/-- C6 (counterexample to the claim as stated): under a truncated-hash
collision the memoization DOES change the result.  With keyword set
`["foo"]` and a hash sending every text to the same key, after querying
"foo" (a match, cached) the query "bar" returns the cached `true`, while
the uncached reference check on "bar" is `false`. -/
theorem keyword_match_collision_counterexample :
    (keyword_match (fun _ => 0) [sl "foo"]
        (kwRunAll (fun _ => 0) [sl "foo"] [sl "foo"] []) (sl "bar")).1 = true
    ∧ keywordRef [sl "foo"] (sl "bar") = false := by
  decide

/-- C1: the code violates the release-on-every-exit invariant.  Invoking the
bad-word scan with `--lang xx` when `utils/badwords_xx.txt` does not exist
returns the file-not-found error from main.py:1865 AFTER
`setup_command_execution` has set `scan_bad_words.is_running = True`
(main.py:1814), without resetting it: the slot stays held, and every later
`!badscan` invocation is rejected as already running. -/
theorem scan_bad_words_missing_lang_file_leaks_slot :
    (scan_bad_words witnessEnv (fun _ => false) [sl "bad"] (fun _ => none)
        (fun _ _ _ => []) true [sl "--lang", sl "xx"] idleState).2.response
      = .badWordsFileNotFound (sl "xx")
    ∧ (scan_bad_words witnessEnv (fun _ => false) [sl "bad"] (fun _ => none)
        (fun _ _ _ => []) true [sl "--lang", sl "xx"] idleState).1.badscan_running
      = true
    ∧ (scan_bad_words witnessEnv (fun _ => false) [sl "bad"] (fun _ => none)
        (fun _ _ _ => []) true [sl "valid"]
        (scan_bad_words witnessEnv (fun _ => false) [sl "bad"] (fun _ => none)
          (fun _ _ _ => []) true [sl "--lang", sl "xx"] idleState).1).2.response
      = .alreadyRunning := by
  decide

/-- C9: `--q 5k` parses to 5000, `--q 2m` to 2,000,000, and `--q abc` is an
input-validation error: the search command reports it, releases the slot it
acquired, and scans nothing. -/
theorem query_limit_parsing (env : GuildEnv) (tm : TimeEnv) (sched : ℕ → Bool)
    (st : BotState) (hrun : st.search_running = false) :
    parse_query_limit (sl "5k") = some 5000
    ∧ parse_query_limit (sl "2m") = some 2000000
    ∧ parse_query_limit (sl "abc") = none
    ∧ (parse_command_args [sl "--q", sl "abc"]).2.error = true
    ∧ (search_messages env tm sched true [sl "--q", sl "abc"] st).2
        = ⟨.parseError, 0, 0, 0⟩
    ∧ (search_messages env tm sched true [sl "--q", sl "abc"] st).1.search_running
        = false := by
  obtain ⟨sr, rr, er, br, sc, cd, stats, mc⟩ := st
  cases hrun
  exact ⟨by decide, by decide, by decide, by decide, rfl, rfl⟩

/-- Witness for `query_limit_parsing` at the concrete idle state. -/
theorem query_limit_parsing_witness :
    parse_query_limit (sl "5k") = some 5000
    ∧ parse_query_limit (sl "2m") = some 2000000
    ∧ parse_query_limit (sl "abc") = none
    ∧ (parse_command_args [sl "--q", sl "abc"]).2.error = true
    ∧ (search_messages witnessEnv witnessTime (fun _ => false) true
        [sl "--q", sl "abc"] idleState).2 = ⟨.parseError, 0, 0, 0⟩
    ∧ (search_messages witnessEnv witnessTime (fun _ => false) true
        [sl "--q", sl "abc"] idleState).1.search_running = false :=
  query_limit_parsing witnessEnv witnessTime (fun _ => false) idleState rfl

theorem badScanMsgsLoop_replicate (check : Str → List Str) (botId : ℤ)
    (m : Msg) (hbot : (m.author == botId) = false) (hm : check m.content ≠ []) :
    ∀ (n : ℕ) (st : BadSt), st.found.length + n ≤ 1000 →
      badScanMsgsLoop (fun _ => false) check botId none (List.replicate n m) st
        = ⟨st.total_messages + n,
           st.found ++ List.replicate n ⟨m, badRecContent m.content, check m.content⟩,
           st.channels_searched, st.polls + n⟩ := by
  intro n
  induction n with
  | zero => intro st _; simp [badScanMsgsLoop]
  | succ k ih =>
    intro st hle
    rw [List.replicate_succ]
    simp only [badScanMsgsLoop, hbot, Bool.false_eq_true, if_false]
    rw [if_pos hm]
    rcases Nat.lt_or_ge (st.found.length + 1) 1000 with hlt | hge
    · rw [if_neg (by simp; omega)]
      rw [ih _ (by simp; omega)]
      simp only [List.append_assoc, List.singleton_append, ← List.replicate_succ,
        BadSt.mk.injEq, true_and, and_true]
      omega
    · have hk : k = 0 := by omega
      subst hk
      rw [if_pos (by simp; omega)]
      simp

set_option maxRecDepth 1000000 in
/-- C4 (counterexample to the claim as stated): with 1000 matching messages
in the first channel the cap is reached there (1000 stored matches, 1000
scanned), yet the run over both channels still iterates the second channel
and scans one more message: `total_messages` rises to 1001 and
`channels_searched` to 2, where the claim requires 1000 and 1. -/
theorem bad_scan_cap_counterexample :
    (badScanChansLoop (fun _ => false) (text_contains_bad_word_low [sl "x"]) 0
        none 1500 [capCh1] ⟨0, [], 0, 0⟩).found.length = 1000
    ∧ (badScanChansLoop (fun _ => false) (text_contains_bad_word_low [sl "x"]) 0
        none 1500 [capCh1] ⟨0, [], 0, 0⟩).total_messages = 1000
    ∧ (badScanChansLoop (fun _ => false) (text_contains_bad_word_low [sl "x"]) 0
        none 1500 [capCh1, capCh2] ⟨0, [], 0, 0⟩).total_messages = 1001
    ∧ (badScanChansLoop (fun _ => false) (text_contains_bad_word_low [sl "x"]) 0
        none 1500 [capCh1, capCh2] ⟨0, [], 0, 0⟩).channels_searched = 2 := by
  have hrep := badScanMsgsLoop_replicate (text_contains_bad_word_low [sl "x"]) 0
    ⟨1, sl "x"⟩ (by decide) (by decide)
  have htake : (List.replicate 1000 (⟨1, sl "x"⟩ : Msg)).take 1500
      = List.replicate 1000 (⟨1, sl "x"⟩ : Msg) := by
    decide
  have htake2 : List.take 1500 [(⟨1, sl "y"⟩ : Msg)] = [⟨1, sl "y"⟩] := by decide
  have h1 : badScanChansLoop (fun _ => false) (text_contains_bad_word_low [sl "x"])
      0 none 1500 [capCh1] ⟨0, [], 0, 0⟩
      = ⟨1000, List.replicate 1000 ⟨⟨1, sl "x"⟩, badRecContent (sl "x"),
          text_contains_bad_word_low [sl "x"] (sl "x")⟩, 1, 1001⟩ := by
    simp only [badScanChansLoop, capCh1]
    rw [if_neg (by simp), if_pos trivial, htake,
      hrep 1000 ⟨0, [], 0 + 1, 0 + 1⟩ (by simp)]
    rfl
  have h2step : badScanMsgsLoop (fun _ => false)
      (text_contains_bad_word_low [sl "x"]) 0 none [⟨1, sl "y"⟩]
      ⟨1000, List.replicate 1000 ⟨⟨1, sl "x"⟩, badRecContent (sl "x"),
        text_contains_bad_word_low [sl "x"] (sl "x")⟩, 2, 1002⟩
      = ⟨1001, List.replicate 1000 ⟨⟨1, sl "x"⟩, badRecContent (sl "x"),
          text_contains_bad_word_low [sl "x"] (sl "x")⟩, 2, 1003⟩ := by
    decide
  have h2 : badScanChansLoop (fun _ => false) (text_contains_bad_word_low [sl "x"])
      0 none 1500 [capCh1, capCh2] ⟨0, [], 0, 0⟩
      = ⟨1001, List.replicate 1000 ⟨⟨1, sl "x"⟩, badRecContent (sl "x"),
          text_contains_bad_word_low [sl "x"] (sl "x")⟩, 2, 1003⟩ := by
    simp only [badScanChansLoop, capCh1, capCh2]
    rw [if_neg (by simp), if_pos trivial, htake,
      hrep 1000 ⟨0, [], 0 + 1, 0 + 1⟩ (by simp)]
    rw [if_neg (by simp), if_pos trivial, htake2]
    exact h2step
  rw [h1, h2]
  simp

theorem badScanMsgsLoop_capped (sched : ℕ → Bool) (check : Str → List Str)
    (botId : ℤ) (uf : Option ℤ) :
    ∀ (msgs : List Msg) (st : BadSt), 1000 ≤ st.found.length →
      (badScanMsgsLoop sched check botId uf msgs st).total_messages
          ≤ st.total_messages + 1
      ∧ (badScanMsgsLoop sched check botId uf msgs st).found.length
          ≤ st.found.length + 1
      ∧ 1000 ≤ (badScanMsgsLoop sched check botId uf msgs st).found.length := by
  intro msgs
  induction msgs with
  | nil => intro st h; exact ⟨Nat.le_succ _, Nat.le_succ _, h⟩
  | cons m rest ih =>
    intro st h
    simp only [badScanMsgsLoop]
    generalize (m.author == botId) = botB
    cases botB
    · rw [if_neg (by simp)]
      generalize (match uf with | some u => m.author != u | none => false) = skipB
      cases skipB
      · rw [if_neg (by simp)]
        by_cases hm : check m.content = []
        · simp only [hm, ne_eq, not_true_eq_false, if_false]
          rw [if_pos (by simp [h])]
          exact ⟨Nat.le_refl _, Nat.le_succ _, h⟩
        · simp only [ne_eq, hm, not_false_eq_true, if_true]
          rw [if_pos (by simp; omega)]
          refine ⟨Nat.le_refl _, by simp, by simp; omega⟩
      · rw [if_pos rfl]
        exact ih st h
    · rw [if_pos rfl]
      exact ih st h

theorem badScanChansLoop_capped (sched : ℕ → Bool) (check : Str → List Str)
    (botId : ℤ) (uf : Option ℤ) (limitN : ℕ) :
    ∀ (chs : List Channel) (st : BadSt), 1000 ≤ st.found.length →
      (badScanChansLoop sched check botId uf limitN chs st).total_messages
          ≤ st.total_messages + chs.length
      ∧ (badScanChansLoop sched check botId uf limitN chs st).found.length
          ≤ st.found.length + chs.length
      ∧ 1000 ≤ (badScanChansLoop sched check botId uf limitN chs st).found.length := by
  intro chs
  induction chs with
  | nil => intro st h; simp only [badScanChansLoop]; exact ⟨by omega, by omega, h⟩
  | cons ch rest ih =>
    intro st h
    simp only [badScanChansLoop, List.length_cons]
    generalize sched st.polls = pb
    cases pb
    · rw [if_neg (by simp)]
      by_cases hr : ch.readable = true
      · rw [if_pos hr]
        obtain ⟨h1, h2, h3⟩ := badScanMsgsLoop_capped sched check botId uf
          (ch.msgs.take limitN)
          ⟨st.total_messages, st.found, st.channels_searched + 1, st.polls + 1⟩ h
        obtain ⟨g1, g2, g3⟩ := ih _ h3
        exact ⟨by simp at h1 ⊢; omega, by simp at h2 ⊢; omega, g3⟩
      · rw [Bool.not_eq_true] at hr
        rw [if_neg (by simp [hr])]
        obtain ⟨g1, g2, g3⟩ := ih ⟨st.total_messages, st.found,
          st.channels_searched + 1, st.polls + 1⟩ h
        exact ⟨by simp at g1 ⊢; omega, by simp at g2 ⊢; omega, g3⟩
    · rw [if_pos rfl]
      exact ⟨by simp, by simp, h⟩

/-- C4 (amended): reaching the 1000-match cap stops the scan of the current
channel (the inner `break` of main.py:2053-2055), but the channel loop
still visits every remaining channel; in each such channel the
messages-scanned counter can rise by up to one more counted message (and
one more stored match) before the post-count cap check breaks again — it
does not stay frozen, and subsequent channels are still iterated. -/
theorem bad_scan_cap_stops_current_channel_only (sched : ℕ → Bool)
    (check : Str → List Str) (botId : ℤ) (uf : Option ℤ) (limitN : ℕ) :
    (∀ (msgs : List Msg) (st : BadSt), 1000 ≤ st.found.length →
      (badScanMsgsLoop sched check botId uf msgs st).total_messages
          ≤ st.total_messages + 1
      ∧ (badScanMsgsLoop sched check botId uf msgs st).found.length
          ≤ st.found.length + 1)
    ∧ (∀ (chs : List Channel) (st : BadSt), 1000 ≤ st.found.length →
      (badScanChansLoop sched check botId uf limitN chs st).total_messages
          ≤ st.total_messages + chs.length
      ∧ (badScanChansLoop sched check botId uf limitN chs st).found.length
          ≤ st.found.length + chs.length) := by
  constructor
  · intro msgs st h
    obtain ⟨h1, h2, _⟩ := badScanMsgsLoop_capped sched check botId uf msgs st h
    exact ⟨h1, h2⟩
  · intro chs st h
    obtain ⟨h1, h2, _⟩ := badScanChansLoop_capped sched check botId uf limitN chs st h
    exact ⟨h1, h2⟩

set_option maxRecDepth 100000 in
/-- Witness for `bad_scan_cap_stops_current_channel_only`: a state already
holding 1000 stored matches, one further message list and one further
channel. -/
theorem bad_scan_cap_stops_current_channel_only_witness :
    ((badScanMsgsLoop (fun _ => false) (fun _ => [sl "x"]) 0 none
        [⟨1, sl "y"⟩] ⟨0, capFound, 0, 0⟩).total_messages ≤ 0 + 1
     ∧ (badScanMsgsLoop (fun _ => false) (fun _ => [sl "x"]) 0 none
        [⟨1, sl "y"⟩] ⟨0, capFound, 0, 0⟩).found.length ≤ capFound.length + 1)
    ∧ ((badScanChansLoop (fun _ => false) (fun _ => [sl "x"]) 0 none 100
        [capCh2] ⟨0, capFound, 0, 0⟩).total_messages ≤ 0 + [capCh2].length
     ∧ (badScanChansLoop (fun _ => false) (fun _ => [sl "x"]) 0 none 100
        [capCh2] ⟨0, capFound, 0, 0⟩).found.length ≤ capFound.length + [capCh2].length) := by
  have hlen : capFound.length = 1000 := by
    rw [capFound]; exact List.length_replicate 1000 _
  have hcap : 1000 ≤ (⟨0, capFound, 0, 0⟩ : BadSt).found.length := by
    show 1000 ≤ capFound.length
    omega
  exact ⟨(bad_scan_cap_stops_current_channel_only (fun _ => false)
      (fun _ => [sl "x"]) 0 none 100).1 [⟨1, sl "y"⟩] ⟨0, capFound, 0, 0⟩ hcap,
    (bad_scan_cap_stops_current_channel_only (fun _ => false)
      (fun _ => [sl "x"]) 0 none 100).2 [capCh2] ⟨0, capFound, 0, 0⟩ hcap⟩

/-- C7: a regex invocation whose pattern fails to compile reports the
invalid-pattern error and performs no scan work: the returned state differs
from the input state only in the cancellation-flag reset that precedes the
compile attempt (in particular `message_cache`, `stats`, the cooldowns and
every `is_running` marker are untouched), and the report counts zero
channels iterated and zero messages scanned. -/
theorem regex_invalid_pattern_no_scan (env : GuildEnv) (tm : TimeEnv)
    (sched : ℕ → Bool) (patMatch : Str → Bool) (args : List Str)
    (st : BotState) (uid : ℤ)
    (hnc : ¬(args.length = 1 ∧ pyLower (args.headD []) = sl "cancel"))
    (hrun : st.regex_running = false)
    (herr : (parse_command_args args).2.error = false)
    (hlen : ¬((parse_command_args args).1.length < 2))
    (huid : extractUserIdRegex ((parse_command_args args).1.headD []) = some uid)
    (hcont : env.users.contains uid = true) :
    regex_search env tm sched false patMatch true args st
      = ({st with search_cancelled := false}, ⟨.invalidPattern, 0, 0, 0⟩) := by
  rcases hpq : parse_command_args args with ⟨processed, flags⟩
  rw [hpq] at herr hlen huid
  dsimp only at herr hlen huid
  dsimp only [regex_search]
  rw [if_neg (by simp)]
  rw [if_neg hnc]
  rw [if_neg (by simp [hrun])]
  rw [hpq]
  dsimp only
  rw [if_neg (by simp [herr])]
  rw [if_neg hlen]
  rw [huid]
  dsimp only
  rw [if_neg (by simp; simpa using hcont)]
  rw [if_pos (by simp)]

/-- Witness for `regex_invalid_pattern_no_scan`: the concrete invocation
`!regex 5 (` (whose pattern fails to compile) from the idle state. -/
theorem regex_invalid_pattern_no_scan_witness :
    regex_search witnessEnv witnessTime (fun _ => false) false (fun _ => false)
        true [sl "5", sl "("] idleState
      = ({idleState with search_cancelled := false}, ⟨.invalidPattern, 0, 0, 0⟩) :=
  regex_invalid_pattern_no_scan witnessEnv witnessTime (fun _ => false)
    (fun _ => false) [sl "5", sl "("] idleState 5 (by decide) (by decide)
    (by decide) (by decide) (by decide) (by decide)

theorem searchChansLoop_cancel_head (sched : ℕ → Bool) (uid : ℤ) (kw : Str)
    (limit : ℤ) (ch : Channel) (chs : List Channel) (st : ScanSt)
    (h : sched st.polls = true) :
    searchChansLoop sched uid kw limit (ch :: chs) st
      = ({st with channels_searched := st.channels_searched + 1, polls := st.polls + 1}, true) := by
  simp [searchChansLoop, h]

theorem regexChansLoop_cancel_head (sched : ℕ → Bool) (pm : Str → Bool)
    (uid : ℤ) (limit : ℤ) (force : Bool) (allCh : List Channel) (ch : Channel)
    (chs : List Channel) (st : RegexSt) (h : sched st.polls = true) :
    regexChansLoop sched pm uid limit force allCh (ch :: chs) st
      = ({st with channels_searched := st.channels_searched + 1, polls := st.polls + 1}, true) := by
  simp [regexChansLoop, h]

theorem exportChansLoop_cancel_head (sched : ℕ → Bool) (uid : ℤ) (kw : Str)
    (limitN : ℕ) (ch : Channel) (chs : List Channel) (st : ExportSt)
    (h : sched st.polls = true) :
    exportChansLoop sched uid kw limitN (ch :: chs) st
      = ({st with channels_searched := st.channels_searched + 1, polls := st.polls + 1}, true) := by
  simp [exportChansLoop, h]

/-- C3 (counterexample to the claim as stated): a search job that terminates
because it observed the cancellation flag at a channel boundary reports
`cancelled` but leaves `cancelled_searches` at 0 — `search_messages` returns
from its cancellation check (main.py:760-762) without updating any stats. -/
theorem search_cancel_counter_counterexample :
    (search_messages witnessEnv witnessTime (fun _ => true) true
        [sl "5", sl "foo"] idleState).2.response = .cancelled
    ∧ (search_messages witnessEnv witnessTime (fun _ => true) true
        [sl "5", sl "foo"] idleState).1.stats.cancelled_searches = 0 := by
  decide

/-- C3 (amended): of the three commands, only the regex search increments
`cancelled_searches` when it observes the cancellation flag at a channel
boundary (main.py:1279); `search_messages` (main.py:760-762) and
`export_results` (main.py:1482-1484) return from their cancellation checks
with the stats aggregate untouched.  Stated for an invocation that reaches
its scan loop (valid arguments, known user, no custom/deep limit) and
observes the flag at the first channel boundary. -/
theorem cancellation_counter_amended :
    (∀ (env : GuildEnv) (tm : TimeEnv) (sched : ℕ → Bool) (args : List Str)
      (st : BotState) (uid : ℤ) (ch : Channel) (chs' : List Channel),
      ¬(args.length = 1 ∧ pyLower (args.headD []) = sl "cancel") →
      st.search_running = false →
      (parse_command_args args).2.error = false →
      ¬((parse_command_args args).1.length < 2) →
      extractUserIdSearch ((parse_command_args args).1.headD []) = some uid →
      env.users.contains uid = true →
      (parse_command_args args).2.deep_search = false →
      (parse_command_args args).2.query_limit = none →
      process_search_channels env.channels
          ((parse_command_args args).2.include_channels.getD [])
          ((parse_command_args args).2.exclude_channels.getD []) = ch :: chs' →
      sched 0 = true →
      (search_messages env tm sched true args st).2.response = .cancelled
      ∧ (search_messages env tm sched true args st).1.stats = st.stats)
    ∧ (∀ (env : GuildEnv) (tm : TimeEnv) (sched : ℕ → Bool)
      (patMatch : Str → Bool) (args : List Str) (st : BotState) (uid : ℤ)
      (ch : Channel) (chs' : List Channel),
      ¬(args.length = 1 ∧ pyLower (args.headD []) = sl "cancel") →
      st.regex_running = false →
      (parse_command_args args).2.error = false →
      ¬((parse_command_args args).1.length < 2) →
      extractUserIdRegex ((parse_command_args args).1.headD []) = some uid →
      env.users.contains uid = true →
      (parse_command_args args).2.deep_search = false →
      (parse_command_args args).2.query_limit = none →
      regexPrepChannels env.channels
          ((parse_command_args args).2.include_channels.getD [])
          ((parse_command_args args).2.exclude_channels.getD []) = ch :: chs' →
      sched 0 = true →
      (regex_search env tm sched true patMatch true args st).2.response = .cancelled
      ∧ (regex_search env tm sched true patMatch true args st).1.stats.cancelled_searches
          = st.stats.cancelled_searches + 1)
    ∧ (∀ (env : GuildEnv) (tm : TimeEnv) (sched : ℕ → Bool) (args : List Str)
      (st : BotState) (uid : ℤ) (ch : Channel) (chs' : List Channel),
      ¬(args.length = 1 ∧ pyLower (args.headD []) = sl "cancel") →
      st.export_running = false →
      (parse_command_args args).2.error = false →
      ¬((parse_command_args args).1.length < 2) →
      extractUserIdRegex ((parse_command_args args).1.headD []) = some uid →
      env.users.contains uid = true →
      (parse_command_args args).2.deep_search = false →
      (parse_command_args args).2.query_limit = none →
      regexPrepChannels env.channels
          ((parse_command_args args).2.include_channels.getD [])
          ((parse_command_args args).2.exclude_channels.getD []) = ch :: chs' →
      sched 0 = true →
      (export_results env tm sched true args st).2.response = .cancelled
      ∧ (export_results env tm sched true args st).1.stats = st.stats) := by
  refine ⟨?_, ?_, ?_⟩
  · intro env tm sched args st uid ch chs' hnc hrun herr hlen huid hcont hdeep hq hchan hsched
    rcases hpq : parse_command_args args with ⟨processed, flags⟩
    rw [hpq] at herr hlen huid hdeep hq hchan
    dsimp only at herr hlen huid hdeep hq hchan
    have hres : search_messages env tm sched true args st
        = ({st with search_running := false, search_cancelled := false},
           ⟨.cancelled, 1, 0, 0⟩) := by
      dsimp only [search_messages]
      rw [if_neg (by simp)]
      rw [if_neg hnc]
      rw [if_neg (by simp [hrun])]
      rw [hpq]
      dsimp only
      rw [if_neg (by simp [herr])]
      rw [if_neg hlen]
      rw [huid]
      dsimp only
      rw [if_neg (by simp; simpa using hcont)]
      rw [hdeep, hq]
      dsimp only [apply_cooldown, Option.isSome_none, Bool.or_self]
      rw [if_neg (by simp)]
      rw [hchan]
      rw [if_neg (by simp)]
      rw [searchChansLoop_cancel_head sched uid _ _ ch chs' ⟨0, [], 0, 0⟩ hsched]
      rfl
    rw [hres]
    exact ⟨rfl, rfl⟩
  · intro env tm sched patMatch args st uid ch chs' hnc hrun herr hlen huid hcont hdeep hq hchan hsched
    rcases hpq : parse_command_args args with ⟨processed, flags⟩
    rw [hpq] at herr hlen huid hdeep hq hchan
    dsimp only at herr hlen huid hdeep hq hchan
    have hres : (regex_search env tm sched true patMatch true args st).2.response
          = .cancelled
        ∧ (regex_search env tm sched true patMatch true args st).1.stats.cancelled_searches
          = st.stats.cancelled_searches + 1 := by
      dsimp only [regex_search]
      rw [if_neg (by simp)]
      rw [if_neg hnc]
      rw [if_neg (by simp [hrun])]
      rw [hpq]
      dsimp only
      rw [if_neg (by simp [herr])]
      rw [if_neg hlen]
      rw [huid]
      dsimp only
      rw [if_neg (by simp; simpa using hcont)]
      rw [if_neg (by simp)]
      rw [hdeep, hq]
      dsimp only [Option.isSome_none, Bool.or_self]
      rw [if_neg (by simp)]
      dsimp only
      rw [hchan]
      rw [regexChansLoop_cancel_head sched patMatch uid _ _ env.channels ch chs'
        ⟨0, [], 0, 0, st.message_cache⟩ hsched]
      exact ⟨rfl, rfl⟩
    exact hres
  · intro env tm sched args st uid ch chs' hnc hrun herr hlen huid hcont hdeep hq hchan hsched
    rcases hpq : parse_command_args args with ⟨processed, flags⟩
    rw [hpq] at herr hlen huid hdeep hq hchan
    dsimp only at herr hlen huid hdeep hq hchan
    have hres : export_results env tm sched true args st
        = ({st with export_running := false, search_cancelled := false},
           ⟨.cancelled, 1, 0, 0⟩) := by
      dsimp only [export_results]
      rw [if_neg (by simp)]
      rw [if_neg hnc]
      rw [if_neg (by simp [hrun])]
      rw [hpq]
      dsimp only
      rw [if_neg (by simp [herr])]
      rw [if_neg hlen]
      rw [huid]
      dsimp only
      rw [if_neg (by simp; simpa using hcont)]
      rw [hdeep, hq]
      dsimp only [Option.isSome_none, Bool.or_self]
      rw [if_neg (by simp)]
      dsimp only
      rw [hchan]
      rw [exportChansLoop_cancel_head sched uid _ _ ch chs' ⟨0, [], 0, 0⟩ hsched]
      rfl
    rw [hres]
    exact ⟨rfl, rfl⟩

/-- Witness for `cancellation_counter_amended`: the three commands invoked
as `5 foo` by an admin from the idle state, with the cancellation flag
already set at the first poll. -/
theorem cancellation_counter_amended_witness :
    ((search_messages witnessEnv witnessTime (fun _ => true) true
        [sl "5", sl "foo"] idleState).2.response = .cancelled
     ∧ (search_messages witnessEnv witnessTime (fun _ => true) true
        [sl "5", sl "foo"] idleState).1.stats = idleState.stats)
    ∧ ((regex_search witnessEnv witnessTime (fun _ => true) true (fun _ => false)
        true [sl "5", sl "foo"] idleState).2.response = .cancelled
     ∧ (regex_search witnessEnv witnessTime (fun _ => true) true (fun _ => false)
        true [sl "5", sl "foo"] idleState).1.stats.cancelled_searches
          = idleState.stats.cancelled_searches + 1)
    ∧ ((export_results witnessEnv witnessTime (fun _ => true) true
        [sl "5", sl "foo"] idleState).2.response = .cancelled
     ∧ (export_results witnessEnv witnessTime (fun _ => true) true
        [sl "5", sl "foo"] idleState).1.stats = idleState.stats) := by
  refine ⟨cancellation_counter_amended.1 witnessEnv witnessTime (fun _ => true)
      [sl "5", sl "foo"] idleState 5 ⟨1, sl "general", true, [⟨5, sl "hello"⟩]⟩ []
      (by decide) (by decide) (by decide) (by decide) (by decide) (by decide)
      (by decide) (by decide) (by decide) rfl,
    (cancellation_counter_amended.2).1 witnessEnv witnessTime (fun _ => true)
      (fun _ => false) [sl "5", sl "foo"] idleState 5
      ⟨1, sl "general", true, [⟨5, sl "hello"⟩]⟩ []
      (by decide) (by decide) (by decide) (by decide) (by decide) (by decide)
      (by decide) (by decide) (by decide) rfl,
    (cancellation_counter_amended.2).2 witnessEnv witnessTime (fun _ => true)
      [sl "5", sl "foo"] idleState 5 ⟨1, sl "general", true, [⟨5, sl "hello"⟩]⟩ []
      (by decide) (by decide) (by decide) (by decide) (by decide) (by decide)
      (by decide) (by decide) (by decide) rfl⟩

/-- C10 (counterexample to the claim as stated): adding `--debug` does NOT
leave every other argument's classification unchanged.  Because line 349
of main.py opens a fresh `if` (breaking the `elif` chain), the presence of
`--debug` anywhere in the arguments makes the second chain take its first
branch on every iteration, so `--users` is no longer classified: alone it
sets `scan_users`, but with `--debug` appended it sets nothing and no
positional arguments are collected either. -/
theorem parse_debug_counterexample :
    (parse_command_args [sl "--users"]).2.scan_users = true
    ∧ (parse_command_args [sl "--users", sl "--debug"]).2.scan_users = false
    ∧ (parse_command_args [sl "--users", sl "--debug"]).2.debug = true := by
  decide

theorem parseLoop_nil (dp : Bool) (fuel : ℕ) (acc : List Str) (fl : CmdFlags) :
    parseLoop dp fuel [] acc fl = (acc.reverse, fl) := by
  cases fuel <;> rfl

theorem classifyTail_debug (arg e : Str) (acc : List Str) (fl : CmdFlags) :
    classifyTail true arg e acc fl = (acc, {fl with debug := true}) := rfl

theorem classifyTail_core (dp : Bool) (arg e : Str) (acc : List Str)
    (fl : CmdFlags) : flagsCore (classifyTail dp arg e acc fl).2 = flagsCore fl := by
  unfold classifyTail
  repeat' split
  all_goals rfl

theorem parseLoop_debug_single (dbg : Str)
    (hdbg : dbg = sl "--debug" ∨ dbg = sl "-d") (g : ℕ) (acc : List Str)
    (fl : CmdFlags) :
    parseLoop true (g + 1) [dbg] acc fl = (acc.reverse, {fl with debug := true}) := by
  rcases hdbg with rfl | rfl <;> rfl

theorem not_value_flag {s : Str} (h : isValueFlag s = false) :
    ¬(s = sl "--q" ∨ s = sl "--query") ∧ ¬(s = sl "--in" ∨ s = sl "--channel")
    ∧ ¬(s = sl "--exclude" ∨ s = sl "--not") := by
  simp only [isValueFlag, Bool.or_eq_false_iff, decide_eq_false_iff_not] at h
  tauto

theorem hlast_step {a : Str} {l : List Str}
    (h : ∀ x, (a :: l).getLast? = some x → isValueFlag (pyLower x) = false) :
    ∀ x, l.getLast? = some x → isValueFlag (pyLower x) = false := by
  intro x hx
  apply h
  cases l with
  | nil => cases hx
  | cons b t => rw [List.getLast?_cons_cons]; exact hx

theorem parseLoop_true_shape :
    ∀ (fuel : ℕ) (rest acc : List Str) (fl : CmdFlags),
      (parseLoop true fuel rest acc fl).1 = acc.reverse
      ∧ (parseLoop true fuel rest acc fl).2.scan_users = fl.scan_users
      ∧ (parseLoop true fuel rest acc fl).2.scan_messages = fl.scan_messages
      ∧ (parseLoop true fuel rest acc fl).2.debug
          = (if rest = [] ∨ fuel = 0 then fl.debug else true) := by
  intro fuel
  induction fuel with
  | zero =>
    intro rest acc fl
    cases rest <;> simp [parseLoop]
  | succ f ih =>
    intro rest acc fl
    cases rest with
    | nil => simp [parseLoop_nil]
    | cons a rest' =>
      have hne : ¬(a :: rest' = [] ∨ f + 1 = 0) := by simp
      rw [if_neg hne]
      cases rest' with
      | nil =>
        simp only [parseLoop]
        split
        · rw [classifyTail_debug]
          exact ⟨rfl, rfl, rfl, rfl⟩
        · rw [classifyTail_debug]
          exact ⟨rfl, rfl, rfl, rfl⟩
      | cons v rest'' =>
        simp only [parseLoop]
        split
        · next hq =>
          cases hpl : parse_query_limit v with
          | some l =>
            rw [classifyTail_debug]
            obtain ⟨g1, g2, g3, g4⟩ := ih rest'' acc {{fl with query_limit := some l} with debug := true}
            exact ⟨g1, g2, g3, g4.trans (by split <;> rfl)⟩
          | none =>
            rw [classifyTail_debug]
            obtain ⟨g1, g2, g3, g4⟩ := ih (v :: rest'') acc {{fl with error := true} with debug := true}
            exact ⟨g1, g2, g3, g4.trans (by split <;> rfl)⟩
        · split
          · rw [classifyTail_debug]
            obtain ⟨g1, g2, g3, g4⟩ := ih rest'' acc
              {{fl with include_channels := some ((splitOnChar ',' v).map pyStrip)} with debug := true}
            exact ⟨g1, g2, g3, g4.trans (by split <;> rfl)⟩
          · split
            · rw [classifyTail_debug]
              obtain ⟨g1, g2, g3, g4⟩ := ih rest'' acc
                {{fl with exclude_channels := some ((splitOnChar ',' v).map pyStrip)} with debug := true}
              exact ⟨g1, g2, g3, g4.trans (by split <;> rfl)⟩
            · split
              · rw [classifyTail_debug]
                obtain ⟨g1, g2, g3, g4⟩ := ih (v :: rest'') acc
                  {{fl with deep_search := true} with debug := true}
                exact ⟨g1, g2, g3, g4.trans (by split <;> rfl)⟩
              · rw [classifyTail_debug]
                obtain ⟨g1, g2, g3, g4⟩ := ih (v :: rest'') acc {fl with debug := true}
                exact ⟨g1, g2, g3, g4.trans (by split <;> rfl)⟩

theorem core_set_q (fl fl₂ : CmdFlags) (x : Option ℤ)
    (h : flagsCore fl₂ = flagsCore fl) :
    flagsCore {fl₂ with query_limit := x} = flagsCore {fl with query_limit := x} := by
  simp only [flagsCore, Prod.mk.injEq] at h ⊢
  exact ⟨trivial, h.2⟩

theorem core_set_err (fl fl₂ : CmdFlags) (h : flagsCore fl₂ = flagsCore fl) :
    flagsCore {fl₂ with error := true} = flagsCore {fl with error := true} := by
  simp only [flagsCore, Prod.mk.injEq] at h ⊢
  exact ⟨h.1, trivial, h.2.2⟩

theorem core_set_inc (fl fl₂ : CmdFlags) (x : Option (List Str))
    (h : flagsCore fl₂ = flagsCore fl) :
    flagsCore {fl₂ with include_channels := x}
      = flagsCore {fl with include_channels := x} := by
  simp only [flagsCore, Prod.mk.injEq] at h ⊢
  exact ⟨h.1, h.2.1, trivial, h.2.2.2⟩

theorem core_set_exc (fl fl₂ : CmdFlags) (x : Option (List Str))
    (h : flagsCore fl₂ = flagsCore fl) :
    flagsCore {fl₂ with exclude_channels := x}
      = flagsCore {fl with exclude_channels := x} := by
  simp only [flagsCore, Prod.mk.injEq] at h ⊢
  exact ⟨h.1, h.2.1, h.2.2.1, trivial, h.2.2.2.2⟩

theorem core_set_deep (fl fl₂ : CmdFlags) (h : flagsCore fl₂ = flagsCore fl) :
    flagsCore {fl₂ with deep_search := true}
      = flagsCore {fl with deep_search := true} := by
  simp only [flagsCore, Prod.mk.injEq] at h ⊢
  exact ⟨h.1, h.2.1, h.2.2.1, h.2.2.2.1, trivial⟩

theorem parseLoop_append_debug_core (dbg : Str)
    (hdbg : dbg = sl "--debug" ∨ dbg = sl "-d") :
    ∀ (fuel : ℕ) (rest : List Str), rest.length ≤ fuel →
      (∀ x, rest.getLast? = some x → isValueFlag (pyLower x) = false) →
      ∀ (acc acc₂ : List Str) (fl fl₂ : CmdFlags),
        flagsCore fl₂ = flagsCore fl →
        flagsCore (parseLoop true (fuel + 1) (rest ++ [dbg]) acc₂ fl₂).2
          = flagsCore (parseLoop false fuel rest acc fl).2 := by
  intro fuel
  induction fuel with
  | zero =>
    intro rest hlen hlast acc acc₂ fl fl₂ hcore
    have hz : rest = [] := List.eq_nil_of_length_eq_zero (Nat.le_zero.mp hlen)
    subst hz
    rw [List.nil_append, parseLoop_debug_single dbg hdbg 0 acc₂ fl₂, parseLoop_nil]
    exact hcore
  | succ f ih =>
    intro rest hlen hlast acc acc₂ fl fl₂ hcore
    cases rest with
    | nil =>
      rw [List.nil_append, parseLoop_debug_single dbg hdbg (f + 1) acc₂ fl₂,
        parseLoop_nil]
      exact hcore
    | cons a rest' =>
      cases rest' with
      | nil =>
        obtain ⟨hv1, hv2, hv3⟩ := not_value_flag (hlast a (by simp))
        simp only [List.cons_append, List.nil_append]
        by_cases hall : (pyLower a = sl "--all" ∨ pyLower a = sl "-a")
        · have e1 : parseLoop false (f + 1) [a] acc fl
              = ((classifyTail false (pyLower a) a acc {fl with deep_search := true}).1.reverse,
                 (classifyTail false (pyLower a) a acc {fl with deep_search := true}).2) := by
            simp only [parseLoop]
            rw [if_pos hall]
          have e2 : parseLoop true (f + 1 + 1) (a :: [dbg]) acc₂ fl₂
              = (acc₂.reverse, {{fl₂ with deep_search := true} with debug := true}) := by
            simp only [parseLoop]
            rw [if_neg hv1, if_neg hv2, if_neg hv3, if_pos hall, classifyTail_debug]
            exact parseLoop_debug_single dbg hdbg f acc₂ _
          rw [e1, e2]
          exact (core_set_deep fl fl₂ hcore).trans
            (classifyTail_core false (pyLower a) a acc {fl with deep_search := true}).symm
        · have e1 : parseLoop false (f + 1) [a] acc fl
              = ((classifyTail false (pyLower a) a acc fl).1.reverse,
                 (classifyTail false (pyLower a) a acc fl).2) := by
            simp only [parseLoop]
            rw [if_neg hall]
          have e2 : parseLoop true (f + 1 + 1) (a :: [dbg]) acc₂ fl₂
              = (acc₂.reverse, {fl₂ with debug := true}) := by
            simp only [parseLoop]
            rw [if_neg hv1, if_neg hv2, if_neg hv3, if_neg hall, classifyTail_debug]
            exact parseLoop_debug_single dbg hdbg f acc₂ _
          rw [e1, e2]
          exact hcore.trans (classifyTail_core false (pyLower a) a acc fl).symm
      | cons v rest'' =>
        have hlen'' : rest''.length ≤ f := by
          simp only [List.length_cons] at hlen
          omega
        have hlenv : (v :: rest'').length ≤ f := by
          simp only [List.length_cons] at hlen ⊢
          omega
        have hlastv := hlast_step hlast
        have hlast'' := hlast_step hlastv
        simp only [List.cons_append]
        by_cases hq : (pyLower a = sl "--q" ∨ pyLower a = sl "--query")
        · cases hpl : parse_query_limit v with
          | some l =>
            have e1 : parseLoop false (f + 1) (a :: v :: rest'') acc fl
                = parseLoop false f rest''
                    (classifyTail false (pyLower a) v acc {fl with query_limit := some l}).1
                    (classifyTail false (pyLower a) v acc {fl with query_limit := some l}).2 := by
              simp only [parseLoop]
              rw [if_pos hq, hpl]
            have e2 : parseLoop true (f + 1 + 1) (a :: v :: (rest'' ++ [dbg])) acc₂ fl₂
                = parseLoop true (f + 1) (rest'' ++ [dbg]) acc₂
                    {{fl₂ with query_limit := some l} with debug := true} := by
              simp only [parseLoop]
              rw [if_pos hq, hpl]
              dsimp only
              rw [classifyTail_debug]
            rw [e1, e2]
            exact ih rest'' hlen'' hlast'' _ acc₂ _ _
              ((core_set_q fl fl₂ (some l) hcore).trans
                (classifyTail_core false (pyLower a) v acc {fl with query_limit := some l}).symm)
          | none =>
            have e1 : parseLoop false (f + 1) (a :: v :: rest'') acc fl
                = parseLoop false f (v :: rest'')
                    (classifyTail false (pyLower a) a acc {fl with error := true}).1
                    (classifyTail false (pyLower a) a acc {fl with error := true}).2 := by
              simp only [parseLoop]
              rw [if_pos hq, hpl]
            have e2 : parseLoop true (f + 1 + 1) (a :: v :: (rest'' ++ [dbg])) acc₂ fl₂
                = parseLoop true (f + 1) (v :: (rest'' ++ [dbg])) acc₂
                    {{fl₂ with error := true} with debug := true} := by
              simp only [parseLoop]
              rw [if_pos hq, hpl]
              dsimp only
              rw [classifyTail_debug]
            rw [e1, e2]
            exact ih (v :: rest'') hlenv hlastv _ acc₂ _ _
              ((core_set_err fl fl₂ hcore).trans
                (classifyTail_core false (pyLower a) a acc {fl with error := true}).symm)
        · by_cases hin : (pyLower a = sl "--in" ∨ pyLower a = sl "--channel")
          · have e1 : parseLoop false (f + 1) (a :: v :: rest'') acc fl
                = parseLoop false f rest''
                    (classifyTail false (pyLower a) v acc {fl with include_channels := some ((splitOnChar ',' v).map pyStrip)}).1
                    (classifyTail false (pyLower a) v acc {fl with include_channels := some ((splitOnChar ',' v).map pyStrip)}).2 := by
              simp only [parseLoop]
              rw [if_neg hq, if_pos hin]
            have e2 : parseLoop true (f + 1 + 1) (a :: v :: (rest'' ++ [dbg])) acc₂ fl₂
                = parseLoop true (f + 1) (rest'' ++ [dbg]) acc₂
                    {{fl₂ with include_channels := some ((splitOnChar ',' v).map pyStrip)} with debug := true} := by
              simp only [parseLoop]
              rw [if_neg hq, if_pos hin, classifyTail_debug]
            rw [e1, e2]
            exact ih rest'' hlen'' hlast'' _ acc₂ _ _
              ((core_set_inc fl fl₂ _ hcore).trans
                (classifyTail_core false (pyLower a) v acc _).symm)
          · by_cases hexc : (pyLower a = sl "--exclude" ∨ pyLower a = sl "--not")
            · have e1 : parseLoop false (f + 1) (a :: v :: rest'') acc fl
                  = parseLoop false f rest''
                      (classifyTail false (pyLower a) v acc {fl with exclude_channels := some ((splitOnChar ',' v).map pyStrip)}).1
                      (classifyTail false (pyLower a) v acc {fl with exclude_channels := some ((splitOnChar ',' v).map pyStrip)}).2 := by
                simp only [parseLoop]
                rw [if_neg hq, if_neg hin, if_pos hexc]
              have e2 : parseLoop true (f + 1 + 1) (a :: v :: (rest'' ++ [dbg])) acc₂ fl₂
                  = parseLoop true (f + 1) (rest'' ++ [dbg]) acc₂
                      {{fl₂ with exclude_channels := some ((splitOnChar ',' v).map pyStrip)} with debug := true} := by
                simp only [parseLoop]
                rw [if_neg hq, if_neg hin, if_pos hexc, classifyTail_debug]
              rw [e1, e2]
              exact ih rest'' hlen'' hlast'' _ acc₂ _ _
                ((core_set_exc fl fl₂ _ hcore).trans
                  (classifyTail_core false (pyLower a) v acc _).symm)
            · by_cases hall : (pyLower a = sl "--all" ∨ pyLower a = sl "-a")
              · have e1 : parseLoop false (f + 1) (a :: v :: rest'') acc fl
                    = parseLoop false f (v :: rest'')
                        (classifyTail false (pyLower a) a acc {fl with deep_search := true}).1
                        (classifyTail false (pyLower a) a acc {fl with deep_search := true}).2 := by
                  simp only [parseLoop]
                  rw [if_neg hq, if_neg hin, if_neg hexc, if_pos hall]
                have e2 : parseLoop true (f + 1 + 1) (a :: v :: (rest'' ++ [dbg])) acc₂ fl₂
                    = parseLoop true (f + 1) (v :: (rest'' ++ [dbg])) acc₂
                        {{fl₂ with deep_search := true} with debug := true} := by
                  simp only [parseLoop]
                  rw [if_neg hq, if_neg hin, if_neg hexc, if_pos hall, classifyTail_debug]
                rw [e1, e2]
                exact ih (v :: rest'') hlenv hlastv _ acc₂ _ _
                  ((core_set_deep fl fl₂ hcore).trans
                    (classifyTail_core false (pyLower a) a acc {fl with deep_search := true}).symm)
              · have e1 : parseLoop false (f + 1) (a :: v :: rest'') acc fl
                    = parseLoop false f (v :: rest'')
                        (classifyTail false (pyLower a) a acc fl).1
                        (classifyTail false (pyLower a) a acc fl).2 := by
                  simp only [parseLoop]
                  rw [if_neg hq, if_neg hin, if_neg hexc, if_neg hall]
                have e2 : parseLoop true (f + 1 + 1) (a :: v :: (rest'' ++ [dbg])) acc₂ fl₂
                    = parseLoop true (f + 1) (v :: (rest'' ++ [dbg])) acc₂
                        {fl₂ with debug := true} := by
                  simp only [parseLoop]
                  rw [if_neg hq, if_neg hin, if_neg hexc, if_neg hall, classifyTail_debug]
                rw [e1, e2]
                exact ih (v :: rest'') hlenv hlastv _ acc₂ _ _
                  (hcore.trans (classifyTail_core false (pyLower a) a acc fl).symm)

/-- Claim C10 (amended).  Appending "--debug" (or "-d") to an argument
list that did not already contain a debug flag, and whose last element
is not a value flag ("--q", "--query", "--in", "--channel", "--exclude",
"--not" — a trailing value flag would consume the appended debug token
as its value, e.g. ["--q"] ++ ["--debug"] flips the error flag),
preserves the classification of the value flags and of "--all", "-a" —
the fields set by the first `if`/`elif` chain — and turns the debug
flag on.  But because of the stray `if "--debug" in args` at
main.py:349 breaking the `elif` chain, the claim's "every other
argument is classified identically" part fails: in the run with the
debug argument, "--users" and "--messages" are never classified (both
scan flags stay false) and no positional argument ever reaches
`processed_args` (it comes back empty), however `args` was classified
in the run without it. -/
theorem parse_debug_append_amended (args : List Str) (dbg : Str)
    (hdbg : dbg = sl "--debug" ∨ dbg = sl "-d")
    (hnd : args.contains (sl "--debug") = false)
    (hnd2 : args.contains (sl "-d") = false)
    (hlast : ∀ x, args.getLast? = some x → isValueFlag (pyLower x) = false) :
    flagsCore (parse_command_args (args ++ [dbg])).2
      = flagsCore (parse_command_args args).2
    ∧ (parse_command_args (args ++ [dbg])).2.debug = true
    ∧ (parse_command_args (args ++ [dbg])).2.scan_users = false
    ∧ (parse_command_args (args ++ [dbg])).2.scan_messages = false
    ∧ (parse_command_args (args ++ [dbg])).1 = [] := by
  have hdp : ((args ++ [dbg]).contains (sl "--debug")
      || (args ++ [dbg]).contains (sl "-d")) = true := by
    rcases hdbg with rfl | rfl <;> simp
  have hdp1 : (args.contains (sl "--debug") || args.contains (sl "-d"))
      = false := by
    rw [hnd, hnd2]
    rfl
  have hlen : (args ++ [dbg]).length = args.length + 1 := by simp
  have h2 : parse_command_args (args ++ [dbg])
      = parseLoop true (args.length + 1) (args ++ [dbg]) [] {} := by
    unfold parse_command_args
    rw [hdp, hlen]
  have h1 : parse_command_args args = parseLoop false args.length args [] {} := by
    unfold parse_command_args
    rw [hdp1]
  rw [h1, h2]
  obtain ⟨hp, hu, hm, hd⟩ := parseLoop_true_shape (args.length + 1) (args ++ [dbg]) [] {}
  refine ⟨?_, ?_, ?_, ?_, ?_⟩
  · exact parseLoop_append_debug_core dbg hdbg args.length args (le_refl _)
      hlast [] [] {} {} rfl
  · rw [hd, if_neg (by simp)]
  · rw [hu]
  · rw [hm]
  · rw [hp]
    rfl

theorem parse_debug_append_amended_witness :
    flagsCore (parse_command_args ([sl "--all"] ++ [sl "--debug"])).2
      = flagsCore (parse_command_args [sl "--all"]).2
    ∧ (parse_command_args ([sl "--all"] ++ [sl "--debug"])).2.debug = true
    ∧ (parse_command_args ([sl "--all"] ++ [sl "--debug"])).2.scan_users = false
    ∧ (parse_command_args ([sl "--all"] ++ [sl "--debug"])).2.scan_messages = false
    ∧ (parse_command_args ([sl "--all"] ++ [sl "--debug"])).1 = [] :=
  parse_debug_append_amended [sl "--all"] (sl "--debug") (Or.inl rfl)
    (by decide) (by decide)
    (fun x hx => by
      rw [show [sl "--all"].getLast? = some (sl "--all") from rfl] at hx
      cases hx
      decide)

end DeepSearch
